import Mathlib

/-!
Shallow embedding of the WebhookLib documentation viewer (`src/script.js`,
with the older variant in `src/unnamed/part_000` noted where it differs).
Strings are modelled as `List Char` internally (`String.data`), JavaScript
regex `replace` calls as explicit scanners over character lists, and the
DOM-held UI state as explicit Lean structures.  All definitions are
executable.  Character literals for the backtick and the quote characters
are spelled via `Char.ofNat` throughout.
-/

namespace WebhookDocs

/-- The backtick character (code 96). -/
def backtick : Char := Char.ofNat 96

/-- The single-quote character (code 39). -/
def squote : Char := Char.ofNat 39

/-- The double-quote character (code 34). -/
def dquote : Char := Char.ofNat 34

/-- JavaScript whitespace as used by `String.prototype.trim` and the regex
class `\s` (the common members; exotic Unicode space separators behave the
same way for every input that actually occurs in this repository). -/
def isJsWhitespace (c : Char) : Bool :=
  c = ' ' || c = '\t' || c = '\n' || c = '\x0d' || c = Char.ofNat 11 ||
  c = Char.ofNat 12 || c = Char.ofNat 0xa0 || c = Char.ofNat 0xfeff

/-- `String.prototype.trim`: strip leading and trailing whitespace. -/
def trimL (l : List Char) : List Char :=
  ((l.dropWhile isJsWhitespace).reverse.dropWhile isJsWhitespace).reverse

/-- `String.prototype.trim` at the `String` level. -/
def trimStr (s : String) : String := ⟨trimL s.data⟩

/-- `String.prototype.toLowerCase` (ASCII case mapping; the repository's
titles and queries are ASCII). -/
def lowerL (l : List Char) : List Char := l.map Char.toLower

/-- `toLowerCase` at the `String` level. -/
def lowerStr (s : String) : String := ⟨lowerL s.data⟩

/-- The regex class `\w` = `[A-Za-z0-9_]`. -/
def isWordChar (c : Char) : Bool := c.isAlphanum || c = '_'

/-- `escapeHtml` (`DocumentationSystem.highlightCode`, script.js:1061-1065):
assigning to a div's `textContent` and reading back `innerHTML` entity-escapes
exactly `&`, `<` and `>` in text content. -/
def escapeChar (c : Char) : List Char :=
  if c = '&' then "&amp;".data
  else if c = '<' then "&lt;".data
  else if c = '>' then "&gt;".data
  else [c]

/-- HTML-entity escaping of a whole character list. -/
def escapeHtmlL (l : List Char) : List Char := l.flatMap escapeChar

/-- HTML-entity escaping at the `String` level
(`DocumentationSystem.escapeHtml` in part_000, same DOM construction). -/
def escapeHtml (s : String) : String := ⟨escapeHtmlL s.data⟩

/-- A character kept by the slug: `[a-z0-9]`. -/
def isSlugChar (c : Char) : Bool :=
  (decide ('a' ≤ c) && decide (c ≤ 'z')) || (decide ('0' ≤ c) && decide (c ≤ '9'))

/-- The regex replace `/[^a-z0-9]+/g → '-'`: each maximal run of
non-`[a-z0-9]` characters collapses to a single hyphen.  The boolean flag
records whether we are inside such a run (a hyphen was already emitted). -/
def collapseAux : Bool → List Char → List Char
  | _, [] => []
  | inRun, c :: r =>
    if isSlugChar c then c :: collapseAux false r
    else if inRun then collapseAux true r
    else '-' :: collapseAux true r

/-- Collapse non-slug runs to single hyphens (initially not inside a run). -/
def collapseNonSlug (l : List Char) : List Char := collapseAux false l

/-- One step of the regex replace `/(^-|-$)/g → ''`: drop a single leading
hyphen. -/
def dropLeadingHyphen : List Char → List Char
  | c :: r => if c = '-' then r else c :: r
  | [] => []

/-- The regex replace `/(^-|-$)/g → ''` removes one leading and one trailing
hyphen (the two anchored alternatives each match at most once). -/
def stripEdgeHyphens (l : List Char) : List Char :=
  (dropLeadingHyphen (dropLeadingHyphen l).reverse).reverse

/-- `DocumentationSystem.createSubsectionId` (script.js:793-795):
`title.toLowerCase().replace(/[^a-z0-9]+/g, '-').replace(/(^-|-$)/g, '')`. -/
def createSubsectionId (title : String) : String :=
  ⟨stripEdgeHyphens (collapseNonSlug (lowerL title.data))⟩

/-- Modelled from the spec's slug description ("lowercase, non-alphanumeric
runs collapsed to a single hyphen, leading/trailing hyphens stripped"), to be
compared with `createSubsectionId`: here *all* leading and trailing hyphens
are stripped. -/
def slugSpec (title : String) : String :=
  ⟨(((collapseNonSlug (lowerL title.data)).dropWhile (fun c => decide (c = '-'))).reverse.dropWhile
      (fun c => decide (c = '-'))).reverse⟩

/-! ### The document data model (§3 of the spec; the JSON document shape) -/

/-- A documentation subsection: `{ title, content }`. -/
structure Subsection where
  title : String
  content : String
deriving DecidableEq

/-- A documentation section: `{ id, title, content, subsections }`. -/
structure Section where
  id : String
  title : String
  content : String
  subsections : List Subsection
deriving DecidableEq

/-- The fetched document tree: `{ sections: [...] }`. -/
structure Docs where
  sections : List Section
deriving DecidableEq

/-- A search index record (`DocumentationSystem.buildSearchIndex`,
script.js:738-768).  Section records carry no `sectionId` in the source, so
that field is an `Option` here (`none` for section records). -/
structure SearchRecord where
  type : String
  sectionId : Option String
  id : String
  title : String
  content : String
  searchText : String
deriving DecidableEq

/-- The record pushed for a section:
`{ type: 'section', id, title, content, searchText }`. -/
def sectionRecord (s : Section) : SearchRecord :=
  { type := "section", sectionId := none, id := s.id, title := s.title,
    content := s.content, searchText := lowerStr (s.title ++ " " ++ s.content) }

/-- The record pushed for a subsection:
`{ type: 'subsection', sectionId, id: createSubsectionId(title), ... }`. -/
def subsectionRecord (s : Section) (sub : Subsection) : SearchRecord :=
  { type := "subsection", sectionId := some s.id, id := createSubsectionId sub.title,
    title := sub.title, content := sub.content,
    searchText := lowerStr (sub.title ++ " " ++ sub.content) }

/-- `DocumentationSystem.buildSearchIndex` (script.js:738-768): for each
section push its record, then one record per subsection, in document order. -/
def buildSearchIndex (docs : Docs) : List SearchRecord :=
  docs.sections.foldl
    (fun acc s =>
      s.subsections.foldl (fun acc2 sub => acc2 ++ [subsectionRecord s sub])
        (acc ++ [sectionRecord s]))
    []

/-! ### Generic model of `String.prototype.replace` with a global regex

`tryAt` attempts a match at the current position: on success it returns the
replacement text and the rest of the input after the matched text (every
matcher consumes at least one character).  On failure the scan advances one
character, exactly as a JavaScript global regex does.  The fuel argument is
the standard structural-recursion device; the callers pass the input length,
which is enough fuel because every match consumes at least one character. -/
def replaceScan (tryAt : List Char → Option (List Char × List Char)) :
    Nat → List Char → List Char
  | _, [] => []
  | 0, l => l
  | fuel + 1, c :: rest =>
    match tryAt (c :: rest) with
    | some (repl, s) => repl ++ replaceScan tryAt fuel s
    | none => c :: replaceScan tryAt fuel rest

/-- Run a global-regex replace over a whole character list. -/
def runReplace (tryAt : List Char → Option (List Char × List Char))
    (l : List Char) : List Char :=
  replaceScan tryAt l.length l

/-- Variant scanner that also tracks the character before the current
position, for regexes with a leading `\b` word-boundary assertion.  A
successful match reports the last character of the matched source text, which
becomes the context for the next position. -/
def replaceScanPrev
    (tryAt : Option Char → List Char → Option (List Char × Char × List Char)) :
    Nat → Option Char → List Char → List Char
  | _, _, [] => []
  | 0, _, l => l
  | fuel + 1, prev, c :: rest =>
    match tryAt prev (c :: rest) with
    | some (repl, lastc, s) => repl ++ replaceScanPrev tryAt fuel (some lastc) s
    | none => c :: replaceScanPrev tryAt fuel (some c) rest

/-- Run a `\b`-anchored global replace (start-of-string has no previous
character). -/
def runReplacePrev
    (tryAt : Option Char → List Char → Option (List Char × Char × List Char))
    (l : List Char) : List Char :=
  replaceScanPrev tryAt l.length none l

/-- First occurrence of `pat` in `l`: `some (pre, post)` with
`l = pre ++ pat ++ post` and `pre` shortest, `none` if `pat` never occurs. -/
def splitFirstSeq (pat : List Char) : List Char → Option (List Char × List Char)
  | [] => if pat.isPrefixOf ([] : List Char) then some ([], []) else none
  | c :: rest =>
    if pat.isPrefixOf (c :: rest) then some ([], (c :: rest).drop pat.length)
    else (splitFirstSeq pat rest).map (fun pq => (c :: pq.1, pq.2))

/-- `String.prototype.includes` / membership of `pat` as a contiguous
subsequence. -/
def containsSeq (pat l : List Char) : Bool := (splitFirstSeq pat l).isSome

/-- Last occurrence of `pat` in `l` (via the first occurrence of the reversed
pattern in the reversed list): `some (pre, post)` with
`l = pre ++ pat ++ post` and `post` shortest. -/
def splitLastSeq (pat : List Char) (l : List Char) : Option (List Char × List Char) :=
  (splitFirstSeq pat.reverse l.reverse).map (fun pq => (pq.2.reverse, pq.1.reverse))

/-! ### Line-based stages (regexes anchored with `^...$` under the `m` flag) -/

/-- Split on newlines; always returns at least one (possibly empty) line. -/
def splitNl : List Char → List (List Char)
  | [] => [[]]
  | c :: rest =>
    if c = '\n' then [] :: splitNl rest
    else
      match splitNl rest with
      | [] => [[c]]
      | h :: t => (c :: h) :: t

/-- Rejoin lines with newlines. -/
def joinNl : List (List Char) → List Char
  | [] => []
  | [x] => x
  | x :: xs => x ++ '\n' :: joinNl xs

/-- Apply a per-line transformation (the effect of a `^...$`-anchored global
regex replace under the `m` flag). -/
def mapLines (f : List Char → List Char) (l : List Char) : List Char :=
  joinNl ((splitNl l).map f)

/-- A line rule of shape `/^PRE (.+)$/ → OPEN $1 CLOSE`: if the line starts
with the literal prefix and at least one character follows, wrap the rest. -/
def linePrefixRule (pre openT closeT : List Char) (line : List Char) : List Char :=
  if pre.isPrefixOf line ∧ line.drop pre.length ≠ [] then
    openT ++ line.drop pre.length ++ closeT
  else line

/-- Does the line start an ordered-list item, i.e. match `^\d+\. (.+)$`? -/
def startsOrderedItem (l : List Char) : Bool :=
  if l.takeWhile Char.isDigit = [] then false
  else
    match l.dropWhile Char.isDigit with
    | '.' :: ' ' :: rest => rest ≠ []
    | _ => false

/-- The line rule `/^\d+\. (.+)$/ → '<li>$1</li>'` (the digits are dropped:
only the captured group survives). -/
def orderedItemLine (line : List Char) : List Char :=
  if line.takeWhile Char.isDigit = [] then line
  else
    match line.dropWhile Char.isDigit with
    | '.' :: ' ' :: rest =>
      if rest ≠ [] then "<li>".data ++ rest ++ "</li>".data else line
    | _ => line

/-! ### `DocumentationSystem.highlightCode` (script.js:1059-1098) -/

/-- `<span class="keyword">KW</span>`. -/
def keywordRepl (kw : List Char) : List Char :=
  "<span class=\"keyword\">".data ++ kw ++ "</span>".data

/-- `<span class="string">$1$2$1</span>`. -/
def stringRepl (q : Char) (content : List Char) : List Char :=
  "<span class=\"string\">".data ++ q :: content ++ q :: "</span>".data

/-- `<span class="comment">$1</span>`. -/
def commentRepl (m : List Char) : List Char :=
  "<span class=\"comment\">".data ++ m ++ "</span>".data

/-- `<span class="number">` ... `</span>`.  The replacement-string literal at
script.js:1078-1081 and 1091-1094 is corrupted in the checked-in file (an
unterminated single-quoted string where the matched text placeholder should
be); it is reconstructed here as wrapping the matched number, matching the
sibling span replacements.  No theorem below depends on this stage. -/
def numberRepl (m : List Char) : List Char :=
  "<span class=\"number\">".data ++ m ++ "</span>".data

/-- Word-boundary test for the position *before* the current character:
`\b` holds at the start of the string or after a non-word character (every
use site is about to match a word character). -/
def boundaryBefore : Option Char → Bool
  | none => true
  | some p => !isWordChar p

/-- `\b` after a word character: the next character must be missing or
non-word. -/
def boundaryAfterWord : List Char → Bool
  | [] => true
  | d :: _ => !isWordChar d

/-- Try the keyword alternation `\b(kw1|kw2|...)\b` at this position:
alternatives are tried in source order; a candidate must be a literal prefix
here and be followed by a word boundary. -/
def tryKeywordAt (kws : List (List Char)) (prev : Option Char) (l : List Char) :
    Option (List Char × Char × List Char) :=
  if boundaryBefore prev then
    kws.findSome? (fun kw =>
      if kw.isPrefixOf l ∧ boundaryAfterWord (l.drop kw.length) then
        some (keywordRepl kw, kw.getLastD ' ', l.drop kw.length)
      else none)
  else none

/-- The Lua keyword list, in the source's alternation order. -/
def luaKeywords : List (List Char) :=
  ["local", "function", "end", "if", "then", "else", "elseif", "while", "for",
   "do", "repeat", "until", "break", "return", "and", "or", "not", "true",
   "false", "nil"].map String.data

/-- The JavaScript keyword list, in the source's alternation order. -/
def jsKeywords : List (List Char) :=
  ["function", "const", "let", "var", "if", "else", "for", "while", "do",
   "switch", "case", "break", "continue", "return", "try", "catch", "finally",
   "class", "extends", "import", "export", "default", "async", "await",
   "true", "false", "null", "undefined"].map String.data

/-- Body of a quoted string for `(["'])((?:\\.|(?!\1)[^\\])*?)\1`: walk to the
first unescaped closing quote.  A backslash must be followed by a non-newline
character (`.` does not match `\n`); an unescaped character may be anything
but the quote and the backslash. -/
def stringBody (q : Char) : List Char → Option (List Char × List Char)
  | [] => none
  | c :: rest =>
    if c = q then some ([], rest)
    else if c = '\\' then
      match rest with
      | [] => none
      | d :: rest' =>
        if d = '\n' then none
        else (stringBody q rest').map (fun pr => (c :: d :: pr.1, pr.2))
    else (stringBody q rest).map (fun pr => (c :: pr.1, pr.2))

/-- Try a quoted-string match at this position, for the given set of opening
quote characters. -/
def tryStringAt (quotes : List Char) (l : List Char) :
    Option (List Char × List Char) :=
  match l with
  | [] => none
  | q :: rest =>
    if quotes.contains q then
      match stringBody q rest with
      | some (content, r') => some (stringRepl q content, r')
      | none => none
    else none

/-- Lua comments `/(--.*$)/gm`: per line, wrap everything from the first
`--` to the end of the line. -/
def luaCommentLine (line : List Char) : List Char :=
  match splitFirstSeq ['-', '-'] line with
  | none => line
  | some (pre, post) => pre ++ commentRepl ('-' :: '-' :: post)

/-- JavaScript comments `/(\/\/.*$|\/\*[\s\S]*?\*\/)/gm`: a line comment to
the end of the line, or a lazy block comment (which may span lines). -/
def tryJsCommentAt (l : List Char) : Option (List Char × List Char) :=
  match l with
  | a :: b :: rest =>
    if a = '/' ∧ b = '/' then
      some (commentRepl ('/' :: '/' :: rest.takeWhile (fun d => decide (d ≠ '\n'))),
        rest.dropWhile (fun d => decide (d ≠ '\n')))
    else if a = '/' ∧ b = '*' then
      match splitFirstSeq ['*', '/'] rest with
      | some (body, after) => some (commentRepl ('/' :: '*' :: body ++ ['*', '/']), after)
      | none => none
    else none
  | _ => none

/-- Try `\b\d+\.?\d*\b` at this position.  The only backtracking the regex
needs: if taking the optional dot leaves no word boundary, retreat to the
digits alone (which is then always boundary-correct, the next character being
the non-word `.`). -/
def tryNumberAt (prev : Option Char) (l : List Char) :
    Option (List Char × Char × List Char) :=
  if boundaryBefore prev then
    match l.takeWhile Char.isDigit, l.dropWhile Char.isDigit with
    | [], _ => none
    | d1 :: ds, r1 =>
      match r1 with
      | '.' :: r2 =>
        let d2 := r2.takeWhile Char.isDigit
        let r3 := r2.dropWhile Char.isDigit
        if (if d2 = [] then !boundaryAfterWord r3 else boundaryAfterWord r3) then
          some (numberRepl ((d1 :: ds) ++ '.' :: d2), (d2.getLastD '.'), r3)
        else
          some (numberRepl (d1 :: ds), (d1 :: ds).getLastD d1, r1)
      | _ =>
        if boundaryAfterWord r1 then
          some (numberRepl (d1 :: ds), (d1 :: ds).getLastD d1, r1)
        else none
  else none

/-- The Lua highlighting chain (keywords, strings, comments, numbers), run on
already-escaped text. -/
def luaHighlight (escaped : List Char) : List Char :=
  runReplacePrev tryNumberAt
    (mapLines luaCommentLine
      (runReplace (tryStringAt [dquote, squote])
        (runReplacePrev (tryKeywordAt luaKeywords) escaped)))

/-- The JavaScript highlighting chain (keywords, strings including
backtick-quoted, comments, numbers), run on already-escaped text. -/
def jsHighlight (escaped : List Char) : List Char :=
  runReplacePrev tryNumberAt
    (runReplace tryJsCommentAt
      (runReplace (tryStringAt [dquote, squote, backtick])
        (runReplacePrev (tryKeywordAt jsKeywords) escaped)))

/-- `DocumentationSystem.highlightCode` (script.js:1059-1098): entity-escape
the code, then apply the language-specific highlighting chain; any other
language returns the escaped text unchanged. -/
def highlightCodeL (code lang : List Char) : List Char :=
  let escaped := escapeHtmlL code
  if lang = "lua".data then luaHighlight escaped
  else if lang = "javascript".data ∨ lang = "js".data then jsHighlight escaped
  else escaped

/-! ### `DocumentationSystem.renderMarkdown` (script.js:1002-1057) -/

/-- Three backticks. -/
def tripleTick : List Char := [backtick, backtick, backtick]

/-- The code-block replacement callback (script.js:1008-1019): language
defaults to `text`; the code is trimmed and highlighted; the surrounding
template literal is reproduced byte-for-byte (including its indentation). -/
def codeBlockRepl (lang code : List Char) : List Char :=
  let language := if lang = [] then "text".data else lang
  let highlighted := highlightCodeL (trimL code) language
  "\n                    <div class=\"code-block\" data-language=\"".data ++
    language ++ "\">\n                        <div class=\"code-header\">\n                            <span class=\"code-lang\">".data ++
    language ++ "</span>\n                        </div>\n                        <pre><code class=\"language-".data ++
    language ++ "\">".data ++ highlighted ++
    "</code></pre>\n                    </div>\n                ".data

/-- Try the fenced-code-block regex ```` /```(\w+)?\n([\s\S]*?)```/ ```` at
this position: three backticks, an optional word-character language tag, a
newline, then a lazy body up to the next three backticks. -/
def tryCodeBlock (l : List Char) : Option (List Char × List Char) :=
  match l with
  | a :: b :: c :: rest =>
    if a = backtick ∧ b = backtick ∧ c = backtick then
      match rest.dropWhile isWordChar with
      | '\n' :: r2 =>
        match splitFirstSeq tripleTick r2 with
        | some (code, after) =>
          some (codeBlockRepl (rest.takeWhile isWordChar) code, after)
        | none => none
      | _ => none
    else none
  | _ => none

/-- Try the inline-code regex `` /`([^`]+)`/ `` at this position. -/
def tryInlineCode (l : List Char) : Option (List Char × List Char) :=
  match l with
  | [] => none
  | c :: rest =>
    if c = backtick then
      match rest.takeWhile (fun d => decide (d ≠ backtick)),
            rest.dropWhile (fun d => decide (d ≠ backtick)) with
      | [], _ => none
      | _, [] => none
      | content, _ :: r' => some ("<code class=\"inline-code\">".data ++ content ++ "</code>".data, r')
    else none

/-- Try the bold regex `/\*\*([^*]+)\*\*/` at this position. -/
def tryBold (l : List Char) : Option (List Char × List Char) :=
  match l with
  | a :: b :: rest =>
    if a = '*' ∧ b = '*' then
      match rest.takeWhile (fun d => decide (d ≠ '*')),
            rest.dropWhile (fun d => decide (d ≠ '*')) with
      | [], _ => none
      | content, _ :: d :: r' =>
        if d = '*' then some ("<strong>".data ++ content ++ "</strong>".data, r')
        else none
      | _, _ => none
    else none
  | _ => none

/-- Try the italic regex `/\*([^*]+)\*/` at this position. -/
def tryItalic (l : List Char) : Option (List Char × List Char) :=
  match l with
  | [] => none
  | c :: rest =>
    if c = '*' then
      match rest.takeWhile (fun d => decide (d ≠ '*')),
            rest.dropWhile (fun d => decide (d ≠ '*')) with
      | [], _ => none
      | _, [] => none
      | content, _ :: r' => some ("<em>".data ++ content ++ "</em>".data, r')
    else none

/-- Try the link regex `/\[([^\]]+)\]\(([^)]+)\)/` at this position. -/
def tryLink (l : List Char) : Option (List Char × List Char) :=
  match l with
  | [] => none
  | c :: rest =>
    if c = '[' then
      match rest.takeWhile (fun d => decide (d ≠ ']')),
            rest.dropWhile (fun d => decide (d ≠ ']')) with
      | [], _ => none
      | _, [] => none
      | text, _ :: afterBracket =>
        match afterBracket with
        | '(' :: urlRest =>
          match urlRest.takeWhile (fun d => decide (d ≠ ')')),
                urlRest.dropWhile (fun d => decide (d ≠ ')')) with
          | [], _ => none
          | _, [] => none
          | url, _ :: r' =>
            some ("<a href=\"".data ++ url ++
              "\" target=\"_blank\" rel=\"noopener noreferrer\">".data ++ text ++ "</a>".data, r')
        | _ => none
    else none

/-- Try the paragraph-break regex `/\n\n/` at this position. -/
def tryPara (l : List Char) : Option (List Char × List Char) :=
  match l with
  | a :: b :: rest => if a = '\n' ∧ b = '\n' then some ("</p><p>".data, rest) else none
  | _ => none

/-- The final `/\n/g → '<br>'` replace (single-character pattern, so a plain
character-wise expansion). -/
def brStage (l : List Char) : List Char :=
  l.flatMap (fun c => if c = '\n' then "<br>".data else [c])

/-- The list-item wrapping regex `/(<li>.*<\/li>\s*)+/gs`.  With the dot-all
flag and a greedy `.*`, the single global match runs from the first `<li>`
through the last `</li>` plus trailing whitespace; the remainder can contain
no further `<li>...</li>` pair, so exactly one replacement happens.  `wrap`
builds the replacement from the matched text. -/
def listWrapStage (wrap : List Char → List Char) (l : List Char) : List Char :=
  match splitFirstSeq "<li>".data l with
  | none => l
  | some (pre, rest) =>
    match splitLastSeq "</li>".data rest with
    | none => l
    | some (mid, after) =>
      let matched := "<li>".data ++ mid ++ "</li>".data ++ after.takeWhile isJsWhitespace
      pre ++ wrap matched ++ after.dropWhile isJsWhitespace

/-- The unordered-list wrap.  The replacement-string literal at
script.js:1034-1037 is corrupted in the checked-in file (an unterminated
single-quoted string where the matched-text placeholder should be); it is
reconstructed here as `<ul>` around the matched run, matching the ordered-list
wrap callback two lines below.  Every theorem below only exercises inputs on
which this stage is the identity. -/
def ulWrapStage (l : List Char) : List Char :=
  listWrapStage (fun m => "<ul>".data ++ m ++ "</ul>".data) l

/-- The ordered-list wrap callback (script.js:1039-1042): leave the match
alone if it already contains `<ul>`, else wrap it in `<ol>`. -/
def olWrapStage (l : List Char) : List Char :=
  listWrapStage
    (fun m => if containsSeq "<ul>".data m then m else "<ol>".data ++ m ++ "</ol>".data) l

/-- `DocumentationSystem.renderMarkdown` (script.js:1002-1057) on character
lists: the fixed chain of sixteen global replaces, then the paragraph wrap
when the result does not start with `<`. -/
def renderMarkdownL (l : List Char) : List Char :=
  let s1 := runReplace tryCodeBlock l
  let s2 := runReplace tryInlineCode s1
  let s3 := runReplace tryBold s2
  let s4 := runReplace tryItalic s3
  let s5 := mapLines (linePrefixRule "### ".data "<h4>".data "</h4>".data) s4
  let s6 := mapLines (linePrefixRule "## ".data "<h3>".data "</h3>".data) s5
  let s7 := mapLines (linePrefixRule "# ".data "<h2>".data "</h2>".data) s6
  let s8 := runReplace tryLink s7
  let s9 := mapLines (linePrefixRule "- ".data "<li>".data "</li>".data) s8
  let s10 := ulWrapStage s9
  let s11 := mapLines orderedItemLine s10
  let s12 := olWrapStage s11
  let s13 := mapLines (linePrefixRule "> ".data "<blockquote>".data "</blockquote>".data) s12
  let s14 := mapLines (fun line => if line = "---".data then "<hr>".data else line) s13
  let s15 := runReplace tryPara s14
  let s16 := brStage s15
  if s16.head? = some '<' then s16 else "<p>".data ++ s16 ++ "</p>".data

/-- `renderMarkdown` at the `String` level, including the falsy-input guard
`if (!content) return ''`. -/
def renderMarkdown (content : String) : String :=
  if content = "" then "" else ⟨renderMarkdownL content.data⟩

/-! ### `DocumentationSystem.renderSection`, `showError`, `buildNavigation` -/

/-- The section header part of `renderSection` (script.js:897-902), template
text reproduced byte-for-byte; section title and prose content are
interpolated verbatim. -/
def sectionHeaderHtml (s : Section) : String :=
  "\n            <div class=\"section-header\">\n                <h1>" ++ s.title ++
  "</h1>\n                <p class=\"section-description\">" ++ s.content ++
  "</p>\n            </div>\n        "

/-- One subsection block of `renderSection` (script.js:905-914): anchor id
from the derived slug, title verbatim, content through `renderMarkdown`, and
a divider after every block except the last (`index < length - 1`). -/
def subsectionBlockHtml (total idx : Nat) (sub : Subsection) : String :=
  "\n                    <section id=\"" ++ createSubsectionId sub.title ++
  "\" class=\"subsection\">\n                        <h2>" ++ sub.title ++
  "</h2>\n                        <div class=\"subsection-content\">" ++
  renderMarkdown sub.content ++ "</div>\n                        " ++
  (if idx < total - 1 then "<hr class=\"subsection-divider\">" else "") ++
  "\n                    </section>\n                "

/-- The `forEach((subsection, index))` accumulation over the subsections. -/
def subsectionsHtml (total idx : Nat) : List Subsection → String
  | [] => ""
  | sub :: rest => subsectionBlockHtml total idx sub ++ subsectionsHtml total (idx + 1) rest

/-- `DocumentationSystem.renderSection` (script.js:893-946) as the HTML
fragment assigned to the content area.  The embedding fixes the desktop path
(`MobileUtils.isMobile()` false, so no mobile navigation buttons); the
post-render scrolling and the copy-button initialisation are DOM side
effects with no bearing on the produced markup. -/
def renderSectionHtml (s : Section) : String :=
  sectionHeaderHtml s ++ subsectionsHtml s.subsections.length 0 s.subsections

/-- `DocumentationSystem.showError` (script.js:1236-1250): the error markup
assigned to the content area, message interpolated verbatim. -/
def showErrorHtml (message : String) : String :=
  "\n                <div class=\"error-container\">\n                    <div class=\"error-icon\">⚠️</div>\n                    <h2>Oops! Something went wrong</h2>\n                    <p class=\"error-message\">" ++
  message ++
  "</p>\n                    <button class=\"retry-button\" onclick=\"location.reload()\">\n                        Retry\n                    </button>\n                </div>\n            "

/-- `DocumentationSystem.buildNavigation` (script.js:770-791): the sidebar
markup, one group per section with a title entry and one entry per
subsection; titles are interpolated verbatim. -/
def buildNavigation (docs : Docs) : String :=
  String.join (docs.sections.map (fun s =>
    "\n                <div class=\"nav-section\">\n                    <div class=\"nav-item nav-section-title\" data-section=\"" ++
    s.id ++ "\">" ++ s.title ++
    "</div>\n                    <div class=\"nav-items\">\n                        " ++
    String.join (s.subsections.map (fun sub =>
      "<div class=\"nav-item nav-subsection\" data-section=\"" ++ s.id ++
      "\" data-subsection=\"" ++ createSubsectionId sub.title ++ "\">" ++
      sub.title ++ "</div>")) ++
    "\n                    </div>\n                </div>\n            "))

/-! ### `DocumentationSystem` state: `loadSection`, the URL fragment, `init` -/

/-- The UI state of the documentation system that the claims are about:
the loaded tree, `this.currentSection`, the location fragment
(`window.location.hash`, `""` when absent, otherwise starting with `#`),
the content area's markup, and which navigation entry carries the `active`
class (`none` when no entry matched). -/
structure DocState where
  docs : Docs
  currentSection : String
  urlHash : String
  content : String
  activeNav : Option (String × Option String)
deriving DecidableEq

/-- Does the navigation built from `docs` contain the entry
`updateActiveNavItem`'s selector targets (a section-title entry, or a
subsection entry with the derived slug)? -/
def navHasItem (docs : Docs) (sectionId : String) : Option String → Bool
  | none => docs.sections.any (fun s => s.id == sectionId)
  | some sub =>
    docs.sections.any (fun s =>
      s.id == sectionId && s.subsections.any (fun b => createSubsectionId b.title == sub))

/-- `DocumentationSystem.loadSection` (script.js:875-891).  On a missing id:
show the error markup and change nothing else.  On success: set the current
section, optionally push `#sectionId` / `#sectionId-subsectionId`, render the
section, and mark the matching navigation entry active
(`updateActiveNavItem`, which first clears every `active` class). -/
def loadSection (st : DocState) (sectionId : String) (subsectionId : Option String)
    (updateURL : Bool) : DocState :=
  match st.docs.sections.find? (fun s => s.id == sectionId) with
  | none => { st with content := showErrorHtml "Section not found." }
  | some sec =>
    let st1 := { st with currentSection := sectionId }
    let st2 :=
      if updateURL then
        { st1 with urlHash :=
            match subsectionId with
            | some sub => "#" ++ sectionId ++ "-" ++ sub
            | none => "#" ++ sectionId }
      else st1
    { st2 with
      content := renderSectionHtml sec,
      activeNav :=
        if navHasItem st.docs sectionId subsectionId then some (sectionId, subsectionId)
        else none }

/-- `DocumentationSystem.getCurrentSectionFromURL` (script.js:870-873):
`window.location.hash.slice(1)` — the fragment without its leading `#` —
defaulting to `getting-started` when empty. -/
def getCurrentSectionFromURL (st : DocState) : String :=
  let hash : String := ⟨st.urlHash.data.drop 1⟩
  if hash = "" then "getting-started" else hash

/-! ### `loadDocs`, the embedded sample document, `init` -/

/-- The possible outcomes of the `fetch('docs.json')` round in `loadDocs`
(script.js:529-547): success with a parsed tree, a rejected fetch, a
non-`ok` response (thrown and caught), or an unparsable body (thrown by
`response.json()` and caught). -/
inductive FetchOutcome
  | ok (docs : Docs)
  | networkError
  | notOk
  | badBody
deriving DecidableEq

/-- `DocumentationSystem.getSampleDocs` (script.js:549-736), the embedded
fallback document, contents reproduced verbatim. -/
def getSampleDocs : Docs :=
  { sections := [
    { id := "getting-started",
      title := "Getting Started",
      content := "Welcome to WebhookLib documentation. This library provides production-quality Discord webhook functionality for Roblox.",
      subsections := [
        { title := "Installation",
          content := "To install WebhookLib in your Roblox project:\n\n\x60\x60\x60lua\n-- Method 1: Direct require\nlocal WebhookLib = require(game.ServerScriptService.WebhookLib)\n\n-- Method 2: Using a module ID\nlocal WebhookLib = require(1234567890) -- Replace with actual module ID\n\x60\x60\x60\n\n**Note:** Make sure HTTP requests are enabled in your game settings." },
        { title := "Quick Start",
          content := "Here\x27s a simple example to get you started:\n\n\x60\x60\x60lua\nlocal WebhookLib = require(game.ServerScriptService.WebhookLib)\n\n-- Create a new webhook\nlocal webhook = WebhookLib.new(\"YOUR_WEBHOOK_URL\")\n\n-- Send a simple message\nwebhook:Send(\"Hello, Discord!\")\n\n-- Send a rich embed\nwebhook:SendEmbed(\x7b\n    title = \"Game Event\",\n    description = \"A player joined the game!\",\n    color = 0x00ff00,\n    fields = \x7b\n        \x7b\n            name = \"Player\",\n            value = \"ExamplePlayer\",\n            inline = true\n        \x7d\n    \x7d\n\x7d)\n\x60\x60\x60" }
      ] },
    { id := "api",
      title := "API Reference",
      content := "Complete API reference for all WebhookLib functions and methods.",
      subsections := [
        { title := "Webhook Class",
          content := "The main Webhook class provides all functionality for sending Discord webhooks.\n\n## Constructor\n\n\x60\x60\x60lua\nlocal webhook = WebhookLib.new(url, options)\n\x60\x60\x60\n\n**Parameters:**\n- \x60url\x60 (string): The Discord webhook URL\n- \x60options\x60 (table, optional): Configuration options\n\n**Options:**\n- \x60username\x60 (string): Override webhook username\n- \x60avatar_url\x60 (string): Override webhook avatar\n- \x60rate_limit\x60 (number): Rate limit in seconds (default: 1)" },
        { title := "Methods",
          content := "## Send(content, username, avatar_url)\n\nSends a simple text message.\n\n\x60\x60\x60lua\nwebhook:Send(\"Hello World!\")\nwebhook:Send(\"Custom message\", \"CustomBot\", \"https://example.com/avatar.png\")\n\x60\x60\x60\n\n## SendEmbed(embed, content, username, avatar_url)\n\nSends a rich embed message.\n\n\x60\x60\x60lua\nwebhook:SendEmbed(\x7b\n    title = \"Embed Title\",\n    description = \"Embed description\",\n    color = 0x0099ff,\n    timestamp = os.date(\"!%Y-%m-%dT%H:%M:%SZ\"),\n    footer = \x7b\n        text = \"Footer text\",\n        icon_url = \"https://example.com/footer.png\"\n    \x7d,\n    fields = \x7b\n        \x7bname = \"Field 1\", value = \"Value 1\", inline = true\x7d,\n        \x7bname = \"Field 2\", value = \"Value 2\", inline = true\x7d\n    \x7d\n\x7d)\n\x60\x60\x60" }
      ] },
    { id := "examples",
      title := "Examples",
      content := "Practical examples and use cases for WebhookLib.",
      subsections := [
        { title := "Player Events",
          content := "Track player join/leave events:\n\n\x60\x60\x60lua\nlocal WebhookLib = require(game.ServerScriptService.WebhookLib)\nlocal webhook = WebhookLib.new(\"YOUR_WEBHOOK_URL\")\n\ngame.Players.PlayerAdded:Connect(function(player)\n    webhook:SendEmbed(\x7b\n        title = \"Player Joined\",\n        description = player.Name .. \" has joined the game!\",\n        color = 0x00ff00,\n        timestamp = os.date(\"!%Y-%m-%dT%H:%M:%SZ\"),\n        thumbnail = \x7b\n            url = \"https://www.roblox.com/headshot-thumbnail/image?userId=\" .. player.UserId .. \"&width=150&height=150&format=png\"\n        \x7d\n    \x7d)\nend)\n\ngame.Players.PlayerRemoving:Connect(function(player)\n    webhook:SendEmbed(\x7b\n        title = \"Player Left\",\n        description = player.Name .. \" has left the game.\",\n        color = 0xff0000,\n        timestamp = os.date(\"!%Y-%m-%dT%H:%M:%SZ\")\n    \x7d)\nend)\n\x60\x60\x60" },
        { title := "Error Logging",
          content := "Log errors and important events:\n\n\x60\x60\x60lua\nlocal function logError(errorMessage, scriptName)\n    webhook:SendEmbed(\x7b\n        title = \"⚠️ Error Occurred\",\n        description = \"An error occurred in the game.\",\n        color = 0xff4444,\n        fields = \x7b\n            \x7b\n                name = \"Error Message\",\n                value = \"\x60\x60\x60\" .. errorMessage .. \"\x60\x60\x60\",\n                inline = false\n            \x7d,\n            \x7b\n                name = \"Script\",\n                value = scriptName or \"Unknown\",\n                inline = true\n            \x7d,\n            \x7b\n                name = \"Time\",\n                value = os.date(\"%Y-%m-%d %H:%M:%S\"),\n                inline = true\n            \x7d\n        \x7d,\n        timestamp = os.date(\"!%Y-%m-%dT%H:%M:%SZ\")\n    \x7d)\nend\n\n-- Usage\npcall(function()\n    -- Your code here\n    someRiskyFunction()\nend) or logError(\"Failed to execute risky function\", script.Name)\n\x60\x60\x60" }
      ] }
  ] }

/-- `DocumentationSystem.loadDocs` (script.js:529-547): every failure mode of
the fetch is caught by the inner `catch`, which substitutes the sample
document. -/
def loadDocs : FetchOutcome → Docs
  | .ok docs => docs
  | _ => getSampleDocs

/-- `DocumentationSystem.init` (script.js:486-505): load the tree (with
fallback), then load the section named by the current location fragment
(initially empty, hence the `getting-started` default).  The transient
loading spinner and the search-index/navigation construction leave no state
this model tracks beyond `docs`. -/
def initSystem (f : FetchOutcome) : DocState :=
  let docs := loadDocs f
  let st0 : DocState :=
    { docs := docs, currentSection := "getting-started", urlHash := "",
      content := "", activeNav := none }
  loadSection st0 (getCurrentSectionFromURL st0) none true

/-- A freshly reloaded page with the given document tree and a location
fragment carried over by the browser. -/
def freshState (docs : Docs) (urlHash : String) : DocState :=
  { docs := docs, currentSection := "getting-started", urlHash := urlHash,
    content := "", activeNav := none }

/-- What happens on reload (or popstate): the current section is resolved
from the fragment by `getCurrentSectionFromURL` — the *whole* fragment is
used as the section id, with no subsection — and loaded. -/
def reloadSystem (docs : Docs) (urlHash : String) : DocState :=
  let st := freshState docs urlHash
  loadSection st (getCurrentSectionFromURL st) none true

/-! ### `ThemeManager` (script.js:30-127) -/

/-- Theme state: the applied theme and the preference store's single key
(`localStorage['webhooklib-theme']`, `none` when never written — the model
assumes the store is available; a read/write failure behaves like `none`,
per the try/catch in `getStoredTheme`/`storeTheme`). -/
structure ThemeState where
  theme : String
  stored : Option String
deriving DecidableEq

/-- JavaScript truthiness of `localStorage.getItem`'s result: `null` and the
empty string are falsy. -/
def jsTruthyStr : Option String → Bool
  | none => false
  | some s => s ≠ ""

/-- `ThemeManager.toggle` (script.js:96-105): flip the theme, apply it, and
persist it. -/
def themeToggle (st : ThemeState) : ThemeState :=
  let t := if st.theme = "dark" then "light" else "dark"
  { theme := t, stored := some t }

/-- The `prefers-color-scheme` change listener (script.js:120-125): only when
no stored preference exists does the ambient value overwrite the theme. -/
def themeAmbientChange (st : ThemeState) (matchesDark : Bool) : ThemeState :=
  if jsTruthyStr st.stored then st
  else { st with theme := if matchesDark then "dark" else "light" }

/-- The events that can reach the theme state machine. -/
inductive ThemeEvent
  | toggleEvent
  | ambient (matchesDark : Bool)
deriving DecidableEq

/-- One step of the theme state machine. -/
def themeStep (st : ThemeState) : ThemeEvent → ThemeState
  | .toggleEvent => themeToggle st
  | .ambient d => themeAmbientChange st d

/-- Is an event an ambient (system color-scheme) change? -/
def isAmbientEvent : ThemeEvent → Bool
  | .ambient _ => true
  | .toggleEvent => false

/-! ### `MobileMenuManager` (script.js:130-268) -/

/-- The mobile menu state: the two instance flags plus the DOM bits the
toggle mutates (the nav panel's `open`/`opening`/`closing` classes, the
toggle button's `active` class, and the body scroll lock). -/
structure MenuState where
  isOpen : Bool
  isAnimating : Bool
  navOpen : Bool
  navOpening : Bool
  navClosing : Bool
  toggleActive : Bool
  bodyScrollLocked : Bool
deriving DecidableEq

/-- `MobileMenuManager.toggle` (script.js:157-205): an immediate no-op while
`isAnimating`; otherwise flip `isOpen`, set `isAnimating`, and mutate the
DOM for the opening or closing transition.  The 300 ms timers are separate
events below. -/
def menuToggle (st : MenuState) : MenuState :=
  if st.isAnimating then st
  else
    let nowOpen := !st.isOpen
    if nowOpen then
      { st with
        isOpen := true, isAnimating := true, bodyScrollLocked := true,
        navOpening := true, navOpen := true, toggleActive := true }
    else
      { st with
        isOpen := false, isAnimating := true, bodyScrollLocked := false,
        navClosing := true, navOpen := false, toggleActive := false }

/-- The 300 ms timer scheduled by every toggle (script.js:202-204): clear
`isAnimating`. -/
def menuAnimationDone (st : MenuState) : MenuState :=
  { st with isAnimating := false }

/-- The 300 ms timer scheduled by the closing branch (script.js:191-193):
remove the `closing` and `opening` classes. -/
def menuClosingCleanup (st : MenuState) : MenuState :=
  { st with navClosing := false, navOpening := false }

/-! ### `DocumentationSystem.searchDocumentation` (script.js:1132-1210) -/

/-- One subsection entry of the sidebar navigation, with its `data-section`
and `data-subsection` attributes and its current visibility. -/
structure NavSubEntry where
  sectionId : String
  subsectionId : String
  shown : Bool
deriving DecidableEq

/-- One `.nav-section` group: the group container, the section-title entry,
and the subsection entries, each with its visibility. -/
structure NavGroup where
  sectionId : String
  groupShown : Bool
  titleShown : Bool
  subs : List NavSubEntry
deriving DecidableEq

/-- The navigation DOM produced by `buildNavigation`, all entries visible. -/
def navModel (docs : Docs) : List NavGroup :=
  docs.sections.map (fun s =>
    { sectionId := s.id, groupShown := true, titleShown := true,
      subs := s.subsections.map (fun sub =>
        { sectionId := s.id, subsectionId := createSubsectionId sub.title,
          shown := true }) })

/-- The filter over the search index (script.js:1151-1154):
`searchText.includes(q) || title.toLowerCase().includes(q)` with
`q = query.toLowerCase().trim()`. -/
def filterSearchIndex (idx : List SearchRecord) (query : String) : List SearchRecord :=
  let searchQuery := trimStr (lowerStr query)
  idx.filter (fun item =>
    containsSeq searchQuery.data item.searchText.data ||
    containsSeq searchQuery.data (lowerStr item.title).data)

/-- Does some navigation group contain the entry a result's selector
targets? -/
def navModelHasItem (nav : List NavGroup) (sectionId : String) :
    Option String → Bool
  | none => nav.any (fun g => g.sectionId == sectionId)
  | some sub =>
    nav.any (fun g => g.subs.any (fun it =>
      it.sectionId == sectionId && it.subsectionId == sub))

/-- The section ids collected into `visibleSections` (script.js:1167-1187):
for each result whose selector finds an entry, the enclosing section id. -/
def visibleSectionIds (nav : List NavGroup) (results : List SearchRecord) :
    List String :=
  results.filterMap (fun r =>
    if r.type == "section" then
      if navModelHasItem nav r.id none then some r.id else none
    else
      match r.sectionId with
      | some sid => if navModelHasItem nav sid (some r.id) then some sid else none
      | none => none)

/-- `DocumentationSystem.searchDocumentation` (script.js:1132-1210) acting on
the navigation visibility state.  Empty trimmed query: every group and entry
becomes visible.  Otherwise: hide everything, show entries matched by a
result, and show the groups (and their title entries) that contain a shown
entry.  (The source's `querySelector` picks the first match of a selector;
with the distinct ids of every document in scope this is the same as showing
each matched entry.  The separate no-results affordance leaves the entries
untouched and is not part of this state.) -/
def searchDocumentation (idx : List SearchRecord) (nav : List NavGroup)
    (query : String) : List NavGroup :=
  let searchQuery := trimStr (lowerStr query)
  if searchQuery = "" then
    nav.map (fun g =>
      { g with
        groupShown := true, titleShown := true,
        subs := g.subs.map (fun it => { it with shown := true }) })
  else
    let results := filterSearchIndex idx query
    let visible := visibleSectionIds nav results
    nav.map (fun g =>
      { g with
        groupShown := visible.contains g.sectionId,
        titleShown :=
          (results.any (fun r => r.type == "section" && r.id == g.sectionId)) ||
          visible.contains g.sectionId,
        subs := g.subs.map (fun it =>
          { it with shown := results.any (fun r =>
              r.type == "subsection" && r.sectionId == some it.sectionId &&
              r.id == it.subsectionId) }) })

/-- Every group, title entry and subsection entry is visible. -/
def allNavShown (nav : List NavGroup) : Bool :=
  nav.all (fun g => g.groupShown && g.titleShown && g.subs.all (fun it => it.shown))

/-- A plain-text string for `renderMarkdown`'s dialect: none of the scanning
triggers (backtick, asterisk, bracket, tag/markup `<`, newline) occur, no
line-anchored pattern matches its single line, and it is not a horizontal
rule.  This is the decidable formalisation of "contains no markdown tokens
and no newlines". -/
def noMarkdownTokens (s : String) : Prop :=
  backtick ∉ s.data ∧ '*' ∉ s.data ∧ '[' ∉ s.data ∧ '<' ∉ s.data ∧ '\n' ∉ s.data ∧
  ¬ "### ".data.isPrefixOf s.data = true ∧ ¬ "## ".data.isPrefixOf s.data = true ∧
  ¬ "# ".data.isPrefixOf s.data = true ∧ ¬ "- ".data.isPrefixOf s.data = true ∧
  ¬ "> ".data.isPrefixOf s.data = true ∧ s.data ≠ "---".data ∧
  startsOrderedItem s.data = false

instance (s : String) : Decidable (noMarkdownTokens s) := by
  unfold noMarkdownTokens
  infer_instance

/-- The concrete markup emitted before the highlighted code of a
```` ```text ```` fenced block. -/
def codeFencePre : List Char :=
  "\n                    <div class=\"code-block\" data-language=\"".data ++
  "text".data ++
  "\">\n                        <div class=\"code-header\">\n                            <span class=\"code-lang\">".data ++
  "text".data ++
  "</span>\n                        </div>\n                        <pre><code class=\"language-".data ++
  "text".data ++ "\">".data

/-- The concrete markup emitted after the highlighted code of a fenced
block. -/
def codeFencePost : List Char :=
  "</code></pre>\n                    </div>\n                ".data

/-! ## Theorems -/

/-! ### Helper lemmas about the slug -/

/-- The hyphen is not a slug character. -/
theorem isSlugChar_hyphen : isSlugChar '-' = false := by decide

/-- `collapseAux true` never starts with a hyphen: inside a run, nothing is
emitted until the next slug character. -/
theorem collapseAux_true_head :
    ∀ (l : List Char) (c : Char) (r : List Char),
      collapseAux true l = c :: r → isSlugChar c = true := by
  intro l
  induction l with
  | nil =>
    intro c r h
    exact List.noConfusion (show ([] : List Char) = c :: r from h)
  | cons d rest ih =>
    intro c r h
    by_cases hd : isSlugChar d = true
    · rw [collapseAux, if_pos hd] at h
      cases h
      exact hd
    · rw [collapseAux, if_neg hd, if_pos rfl] at h
      exact ih c r h

/-- The collapsed string never contains two adjacent hyphens. -/
theorem collapse_no_adj : ∀ (b : Bool) (l : List Char), ¬ (['-', '-'] <:+: collapseAux b l) := by
  intro b l
  induction l generalizing b with
  | nil => simp [collapseAux]
  | cons d rest ih =>
    by_cases hd : isSlugChar d = true
    · rw [collapseAux, if_pos hd]
      rw [List.infix_cons_iff]
      rintro (hpre | hinf)
      · rw [List.cons_prefix_cons] at hpre
        rw [← hpre.1] at hd
        exact absurd hd (by decide)
      · exact ih false hinf
    · cases b with
      | true =>
        have hstep : collapseAux true (d :: rest) = collapseAux true rest := by
          rw [collapseAux, if_neg hd, if_pos rfl]
        rw [hstep]
        exact ih true
      | false =>
        have hstep : collapseAux false (d :: rest) = '-' :: collapseAux true rest := by
          rw [collapseAux, if_neg hd, if_neg (by simp)]
        rw [hstep]
        rw [List.infix_cons_iff]
        rintro (hpre | hinf)
        · rw [List.cons_prefix_cons] at hpre
          obtain ⟨c, r, hcr⟩ : ∃ c r, collapseAux true rest = c :: r := by
            rcases hx : collapseAux true rest with _ | ⟨c, r⟩
            · rw [hx] at hpre
              exact absurd hpre.2 (by simp)
            · exact ⟨c, r, rfl⟩
          have hc := collapseAux_true_head rest c r hcr
          rw [hcr] at hpre
          rw [List.cons_prefix_cons] at hpre
          rw [← hpre.2.1] at hc
          exact absurd hc (by decide)
        · exact ih true hinf

/-- On a string without adjacent hyphens, stripping *all* leading hyphens is
the same as stripping *one*. -/
theorem dropWhile_hyphen_eq {l : List Char} (h : ¬ (['-', '-'] <:+: l)) :
    l.dropWhile (fun c => decide (c = '-')) = dropLeadingHyphen l := by
  cases l with
  | nil => rfl
  | cons c r =>
    by_cases hc : c = '-'
    · subst hc
      rw [List.dropWhile_cons_of_pos (by simp), dropLeadingHyphen, if_pos rfl]
      cases r with
      | nil => rfl
      | cons d r' =>
        have hd : d ≠ '-' := by
          intro hd
          subst hd
          exact h ⟨[], r', rfl⟩
        rw [List.dropWhile_cons_of_neg (by simp [hd])]
    · rw [List.dropWhile_cons_of_neg (by simp [hc]), dropLeadingHyphen, if_neg hc]

/-- The code's one-hyphen edge strip agrees with the spec's strip-all-edge
hyphens on every title, because the collapsed string never has two adjacent
hyphens: `createSubsectionId` computes exactly the spec's deterministic
slug. -/
theorem createSubsectionId_eq_slugSpec (t : String) :
    createSubsectionId t = slugSpec t := by
  apply String.ext
  show stripEdgeHyphens (collapseNonSlug (lowerL t.data)) = _
  have h0 : ¬ (['-', '-'] <:+: collapseNonSlug (lowerL t.data)) :=
    collapse_no_adj false (lowerL t.data)
  rw [stripEdgeHyphens, ← dropWhile_hyphen_eq h0]
  have h1 : ¬ (['-', '-'] <:+:
      ((collapseNonSlug (lowerL t.data)).dropWhile (fun c => decide (c = '-'))).reverse) := by
    intro hi
    apply h0
    have h2 : (['-', '-'] : List Char) = (['-', '-'] : List Char).reverse := by decide
    rw [h2] at hi
    rw [List.reverse_infix] at hi
    exact hi.trans (List.dropWhile_suffix _).isInfix
  rw [← dropWhile_hyphen_eq h1]
  rfl

/-- C3: for every section id not present in the document tree, `loadSection`
shows the user-visible error state in the content area and changes nothing
else — the current section keeps its previous value, the location fragment is
not updated, and the navigation's active entry is unchanged. -/
theorem C3_loadSection_missing (st : DocState) (sectionId : String)
    (subsectionId : Option String) (updateURL : Bool)
    (h : st.docs.sections.find? (fun s => s.id == sectionId) = none) :
    let st' := loadSection st sectionId subsectionId updateURL
    st'.content = showErrorHtml "Section not found." ∧
    st'.currentSection = st.currentSection ∧
    st'.urlHash = st.urlHash ∧
    st'.activeNav = st.activeNav ∧
    st'.docs = st.docs := by
  simp [loadSection, h]

/-- Witness for C3 at a concrete state: loading the id `missing` against a
one-section tree shows the error and leaves every other field unchanged. -/
theorem C3_loadSection_missing_witness :
    let docs : Docs :=
      { sections := [{ id := "intro", title := "Intro", content := "Hi", subsections := [] }] }
    let st : DocState :=
      { docs := docs, currentSection := "intro", urlHash := "#intro",
        content := "prior", activeNav := some ("intro", none) }
    let st' := loadSection st "missing" none true
    st'.content = showErrorHtml "Section not found." ∧
    st'.currentSection = "intro" ∧
    st'.urlHash = "#intro" ∧
    st'.activeNav = some ("intro", none) ∧
    st'.docs = st.docs := by
  exact C3_loadSection_missing _ "missing" none true (by decide)

/-- C7: an explicit theme toggle writes the chosen theme to the preference
store (making it truthy), after which ambient color-scheme change events
never alter the theme state; before any toggle, with no stored preference,
each ambient change event sets the theme to the ambient value. -/
theorem C7_theme_pinning :
    (∀ st : ThemeState,
      (themeToggle st).stored = some (themeToggle st).theme ∧
      jsTruthyStr (themeToggle st).stored = true) ∧
    (∀ (st : ThemeState) (evs : List ThemeEvent),
      jsTruthyStr st.stored = true → (∀ e ∈ evs, isAmbientEvent e = true) →
      evs.foldl themeStep st = st) ∧
    (∀ (st : ThemeState) (d : Bool), st.stored = none →
      themeStep st (.ambient d) = { st with theme := if d then "dark" else "light" }) := by
  refine ⟨fun st => ⟨rfl, by simp only [themeToggle, jsTruthyStr]; split <;> decide⟩, ?_, ?_⟩
  · intro st evs htruthy hamb
    induction evs with
    | nil => rfl
    | cons e evs ih =>
      have he : isAmbientEvent e = true := hamb e (List.mem_cons_self ..)
      obtain ⟨d, rfl⟩ : ∃ d, e = ThemeEvent.ambient d := by
        cases e with
        | toggleEvent => simp [isAmbientEvent] at he
        | ambient d => exact ⟨d, rfl⟩
      have hstep : themeStep st (.ambient d) = st := by
        simp [themeStep, themeAmbientChange, htruthy]
      rw [List.foldl_cons, hstep]
      exact ih (fun e he' => hamb e (List.mem_cons_of_mem _ he'))
  · intro st d hnone
    simp [themeStep, themeAmbientChange, hnone, jsTruthyStr]

/-- Witness for C7 at concrete states: the spec's scenario — toggling from
`light` with nothing stored yields `dark`, stores `"dark"`, and a subsequent
ambient change to light is ignored; and with nothing stored an ambient dark
change tracks to `dark`. -/
theorem C7_theme_pinning_witness :
    (themeToggle { theme := "light", stored := none }).stored =
      some (themeToggle { theme := "light", stored := none }).theme ∧
    [ThemeEvent.ambient false].foldl themeStep { theme := "dark", stored := some "dark" } =
      { theme := "dark", stored := some "dark" } ∧
    themeStep { theme := "light", stored := none } (.ambient true) =
      { theme := "dark", stored := none } := by
  refine ⟨(C7_theme_pinning.1 _).1, ?_, ?_⟩
  · exact C7_theme_pinning.2.1 _ _ (by decide) (by decide)
  · exact C7_theme_pinning.2.2 { theme := "light", stored := none } true rfl

/-- C8: calling the mobile menu's `toggle()` while a transition is in
progress is a no-op that changes no state; two `toggle()` calls within one
transition window leave the menu in the state targeted by the first call. -/
theorem C8_menu_toggle_reentrancy :
    (∀ st : MenuState, st.isAnimating = true → menuToggle st = st) ∧
    (∀ st : MenuState, st.isAnimating = false →
      menuToggle (menuToggle st) = menuToggle st ∧
      (menuToggle st).isOpen = !st.isOpen) := by
  have hNoOp : ∀ s : MenuState, s.isAnimating = true → menuToggle s = s := by
    intro s hs
    simp [menuToggle, hs]
  refine ⟨hNoOp, fun st h => ?_⟩
  have h1 : (menuToggle st).isAnimating = true := by
    simp [menuToggle, h]
    cases hb : st.isOpen <;> simp [hb]
  refine ⟨hNoOp _ h1, ?_⟩
  simp [menuToggle, h]
  cases hb : st.isOpen <;> simp [hb]

/-- Witness for C8 at a concrete state: from the closed idle state, a second
`toggle()` inside the transition window is a no-op and the menu stays in the
open state targeted by the first call. -/
theorem C8_menu_toggle_reentrancy_witness :
    let st : MenuState :=
      { isOpen := false, isAnimating := false, navOpen := false, navOpening := false,
        navClosing := false, toggleActive := false, bodyScrollLocked := false }
    menuToggle (menuToggle st) = menuToggle st ∧ (menuToggle st).isOpen = true := by
  exact (C8_menu_toggle_reentrancy.2 _ rfl).imp id (fun h => h)

/-- C2 counterexample: the round trip fails when a subsection is given.
Loading `intro` with subsection `step-one` writes the fragment
`#intro-step-one`, but on reload the *whole* fragment is used as a section
id, which is not in the tree: the error state is shown and the restored
current section is the default, not `intro`. -/
theorem C2_roundtrip_counterexample :
    let docs : Docs :=
      { sections := [
          { id := "intro", title := "Intro", content := "Hi",
            subsections := [{ title := "Step One", content := "go" }] }] }
    let st1 := loadSection (freshState docs "") "intro" (some "step-one") true
    st1.urlHash = "#intro-step-one" ∧
    st1.currentSection = "intro" ∧
    (reloadSystem docs st1.urlHash).currentSection = "getting-started" ∧
    (reloadSystem docs st1.urlHash).currentSection ≠ "intro" ∧
    (reloadSystem docs st1.urlHash).activeNav = none ∧
    (reloadSystem docs st1.urlHash).content = showErrorHtml "Section not found." := by
  refine ⟨rfl, rfl, rfl, by decide, rfl, rfl⟩

/-- C2 amended: `loadSection(id, subsectionId)` always sets the fragment to
exactly `#id` (or `#id-subsectionId`); and reading the fragment back restores
the same current section and (absent) subsection on reload only in the
section-only case — the reload path never re-splits `id-subsectionId`. -/
theorem C2_roundtrip_amended :
    (∀ (st : DocState) (sectionId : String) (subsectionId : Option String) (sec : Section),
      st.docs.sections.find? (fun s => s.id == sectionId) = some sec →
      (loadSection st sectionId subsectionId true).urlHash =
        (match subsectionId with
         | some sub => "#" ++ sectionId ++ "-" ++ sub
         | none => "#" ++ sectionId)) ∧
    (∀ (docs : Docs) (st : DocState) (sectionId : String) (sec : Section),
      st.docs = docs →
      docs.sections.find? (fun s => s.id == sectionId) = some sec →
      sectionId ≠ "" →
      (loadSection st sectionId none true).urlHash = "#" ++ sectionId ∧
      getCurrentSectionFromURL (freshState docs ("#" ++ sectionId)) = sectionId ∧
      (reloadSystem docs ("#" ++ sectionId)).currentSection = sectionId ∧
      (reloadSystem docs ("#" ++ sectionId)).activeNav = some (sectionId, none)) := by
  constructor
  · intro st sectionId subsectionId sec h
    cases subsectionId <;> simp [loadSection, h]
  · intro docs st sectionId sec hdocs h hne
    have hget : getCurrentSectionFromURL (freshState docs ("#" ++ sectionId)) = sectionId := by
      have hdata : ("#" ++ sectionId).data.drop 1 = sectionId.data := by
        rw [String.data_append]
        rfl
      have hmk : (⟨("#" ++ sectionId).data.drop 1⟩ : String) = sectionId := by
        rw [hdata]
      simp only [getCurrentSectionFromURL, freshState, hmk]
      rw [if_neg hne]
    have hany : docs.sections.any (fun s => s.id == sectionId) = true := by
      rw [List.any_eq_true]
      exact ⟨sec, List.mem_of_find?_eq_some h,
        by simpa using (List.find?_some h)⟩
    refine ⟨by simp [loadSection, hdocs ▸ h], hget, ?_, ?_⟩
    · simp only [reloadSystem, hget]
      simp [loadSection, freshState, h]
    · simp only [reloadSystem, hget]
      simp [loadSection, freshState, h, navHasItem, hany]

/-- Witness for C2's amended statement at a concrete tree: the section-only
round trip through the fragment `#api` restores the section `api`. -/
theorem C2_roundtrip_amended_witness :
    let docs : Docs :=
      { sections := [{ id := "api", title := "API", content := "c", subsections := [] }] }
    let st := freshState docs ""
    (loadSection st "api" none true).urlHash = "#api" ∧
    getCurrentSectionFromURL (freshState docs ("#" ++ "api")) = "api" ∧
    (reloadSystem docs ("#" ++ "api")).currentSection = "api" ∧
    (reloadSystem docs ("#" ++ "api")).activeNav = some ("api", none) := by
  intro docs st
  exact C2_roundtrip_amended.2 docs st "api" ⟨"api", "API", "c", []⟩ rfl rfl (by decide)

/-- `buildSearchIndex` in closed form: the accumulating `forEach` pushes are
exactly a flat-map over the sections in document order. -/
theorem buildSearchIndex_eq_flatMap (docs : Docs) :
    buildSearchIndex docs =
      docs.sections.flatMap (fun s => sectionRecord s :: s.subsections.map (subsectionRecord s)) := by
  have hinner : ∀ (s : Section) (subs : List Subsection) (init : List SearchRecord),
      subs.foldl (fun a sub => a ++ [subsectionRecord s sub]) init =
        init ++ subs.map (subsectionRecord s) := by
    intro s subs
    induction subs with
    | nil => intro init; simp
    | cons b bs ih => intro init; simp [ih]
  have hfold : ∀ (secs : List Section) (init : List SearchRecord),
      secs.foldl
        (fun acc s => acc ++ (sectionRecord s :: s.subsections.map (subsectionRecord s))) init =
        init ++ secs.flatMap (fun s => sectionRecord s :: s.subsections.map (subsectionRecord s)) := by
    intro secs
    induction secs with
    | nil => intro init; simp
    | cons s ss ih => intro init; simp [ih]
  have hcongr : ∀ (secs : List Section) (init : List SearchRecord),
      secs.foldl
        (fun acc s =>
          s.subsections.foldl (fun a sub => a ++ [subsectionRecord s sub])
            (acc ++ [sectionRecord s])) init =
        secs.foldl
          (fun acc s => acc ++ (sectionRecord s :: s.subsections.map (subsectionRecord s))) init := by
    intro secs
    induction secs with
    | nil => intro init; rfl
    | cons s ss ih =>
      intro init
      rw [List.foldl_cons, List.foldl_cons, hinner, ih]
      congr 1
      simp
  simpa [buildSearchIndex] using (hcongr docs.sections []).trans (hfold docs.sections [])

/-- C5: for every document tree, `buildSearchIndex` produces exactly
`count(sections) + count(subsections)` records, in document order (the index
is the flat-map of per-section records in section order), and every
subsection record's id equals the deterministic slug of its title. -/
theorem C5_buildSearchIndex (docs : Docs) :
    buildSearchIndex docs =
      docs.sections.flatMap (fun s => sectionRecord s :: s.subsections.map (subsectionRecord s)) ∧
    (buildSearchIndex docs).length =
      docs.sections.length + (docs.sections.map (fun s => s.subsections.length)).sum ∧
    (∀ r ∈ buildSearchIndex docs, r.type = "subsection" → r.id = slugSpec r.title) := by
  refine ⟨buildSearchIndex_eq_flatMap docs, ?_, ?_⟩
  · rw [buildSearchIndex_eq_flatMap]
    induction docs.sections with
    | nil => rfl
    | cons s ss ih =>
      simp only [List.flatMap_cons, List.length_append, List.length_cons, List.length_map,
        List.map_cons, List.sum_cons, ih]
      omega
  · intro r hr htype
    rw [buildSearchIndex_eq_flatMap, List.mem_flatMap] at hr
    obtain ⟨s, _, hmem⟩ := hr
    rcases List.mem_cons.mp hmem with hsec | hsub
    · subst hsec
      have h' : ("section" : String) = "subsection" := htype
      exact absurd h' (by decide)
    · obtain ⟨sub, _, hsubr⟩ := List.mem_map.mp hsub
      subst hsubr
      exact createSubsectionId_eq_slugSpec sub.title

/-- Witness for C5 at a concrete two-record document. -/
theorem C5_buildSearchIndex_witness :
    let docs : Docs :=
      { sections := [
          { id := "intro", title := "Intro", content := "Hi",
            subsections := [{ title := "Step One", content := "go" }] }] }
    (buildSearchIndex docs).length =
      docs.sections.length + (docs.sections.map (fun s => s.subsections.length)).sum ∧
    ∀ r ∈ buildSearchIndex docs, r.type = "subsection" → r.id = slugSpec r.title := by
  intro docs
  exact ⟨(C5_buildSearchIndex docs).2.1, (C5_buildSearchIndex docs).2.2⟩

/-! ### Helper facts for C4 -/

/-- A rendered section is never the empty string: the header template is
non-empty. -/
theorem renderSectionHtml_ne_empty (s : Section) : renderSectionHtml s ≠ "" := by
  intro h
  have hd : (renderSectionHtml s).data = [] := congrArg String.data h
  rw [renderSectionHtml, sectionHeaderHtml] at hd
  simp only [String.data_append, List.append_eq_nil, List.append_assoc] at hd
  exact absurd hd.1 (by decide)

set_option maxRecDepth 4000 in
/-- A rendered section is never the not-found error markup: the two templates
differ within their first sixteen characters. -/
theorem renderSectionHtml_ne_error (s : Section) (m : String) :
    renderSectionHtml s ≠ showErrorHtml m := by
  intro h
  have hd := congrArg (fun t : String => t.data.take 16) h
  simp only [renderSectionHtml, sectionHeaderHtml, showErrorHtml, String.data_append,
    List.append_assoc] at hd
  rw [List.take_append_of_le_length (by decide),
    List.take_append_of_le_length (by decide)] at hd
  exact absurd hd (by decide)

/-- The successful shape of `loadSection` with no subsection and URL update. -/
theorem loadSection_found (st : DocState) (sectionId : String) (sec : Section)
    (h : st.docs.sections.find? (fun s => s.id == sectionId) = some sec) :
    loadSection st sectionId none true =
      { docs := st.docs, currentSection := sectionId, urlHash := "#" ++ sectionId,
        content := renderSectionHtml sec,
        activeNav :=
          if navHasItem st.docs sectionId none then some (sectionId, none) else none } := by
  simp [loadSection, h]

/-- On any fetch failure, initialisation runs against the sample document and
renders the found `getting-started` section into the content area. -/
theorem initSystem_failure_shape (f : FetchOutcome) (hf : loadDocs f = getSampleDocs) :
    (initSystem f).docs = getSampleDocs ∧
    ∃ sec ∈ getSampleDocs.sections, (initSystem f).content = renderSectionHtml sec := by
  obtain ⟨sec, hfind⟩ :
      ∃ sec, getSampleDocs.sections.find? (fun s => s.id == "getting-started") = some sec :=
    ⟨_, rfl⟩
  have hinit : initSystem f = loadSection (freshState getSampleDocs "") "getting-started" none true := by
    simp only [initSystem, hf]
    rfl
  rw [hinit, loadSection_found _ _ sec hfind]
  exact ⟨rfl, sec, List.mem_of_find?_eq_some hfind, rfl⟩

/-- C4: every document-fetch failure mode (rejected fetch, non-ok response,
unparsable body) falls back to the fixed embedded sample document, so after
initialisation the loaded tree is non-empty and the content area holds a
rendered section — neither a blank page nor the error view. -/
theorem C4_fetch_fallback :
    loadDocs .networkError = getSampleDocs ∧
    loadDocs .notOk = getSampleDocs ∧
    loadDocs .badBody = getSampleDocs ∧
    getSampleDocs.sections ≠ [] ∧
    (∀ f ∈ [FetchOutcome.networkError, FetchOutcome.notOk, FetchOutcome.badBody],
      (initSystem f).docs.sections ≠ [] ∧
      (initSystem f).content ≠ "" ∧
      (initSystem f).content ≠ showErrorHtml "Section not found.") := by
  refine ⟨rfl, rfl, rfl, by decide, ?_⟩
  intro f hf
  have hload : loadDocs f = getSampleDocs := by
    cases f with
    | ok d => simp at hf
    | networkError => rfl
    | notOk => rfl
    | badBody => rfl
  obtain ⟨hdocs, sec, _, hcontent⟩ := initSystem_failure_shape f hload
  refine ⟨?_, ?_, ?_⟩
  · rw [hdocs]
    decide
  · rw [hcontent]
    exact renderSectionHtml_ne_empty sec
  · rw [hcontent]
    exact renderSectionHtml_ne_error sec _

/-! ### Helper lemmas about `splitFirstSeq`, `containsSeq` and `trimL` -/

/-- `splitFirstSeq` finds something exactly when the pattern occurs. -/
theorem splitFirstSeq_isSome_iff (pat : List Char) :
    ∀ l : List Char, (splitFirstSeq pat l).isSome = true ↔ pat <:+: l := by
  intro l
  induction l with
  | nil =>
    rw [splitFirstSeq]
    by_cases hp : pat.isPrefixOf ([] : List Char) = true
    · rw [if_pos hp]
      simp only [Option.isSome_some, true_iff]
      rw [List.isPrefixOf_iff_prefix] at hp
      exact hp.isInfix
    · rw [if_neg hp]
      simp only [Option.isSome_none, Bool.false_eq_true, false_iff]
      intro hi
      rw [List.infix_nil] at hi
      subst hi
      exact hp (by rw [List.isPrefixOf_iff_prefix])
  | cons c rest ih =>
    rw [splitFirstSeq]
    by_cases hp : pat.isPrefixOf (c :: rest) = true
    · rw [if_pos hp]
      simp only [Option.isSome_some, true_iff]
      rw [List.isPrefixOf_iff_prefix] at hp
      exact hp.isInfix
    · have hmap : (Option.map (fun pq : List Char × List Char => (c :: pq.1, pq.2))
          (splitFirstSeq pat rest)).isSome = (splitFirstSeq pat rest).isSome := by
        cases splitFirstSeq pat rest <;> rfl
      rw [if_neg hp, hmap, ih, List.infix_cons_iff]
      constructor
      · exact Or.inr
      · rintro (hpre | hinf)
        · exact absurd (List.isPrefixOf_iff_prefix.mpr hpre) hp
        · exact hinf

/-- `includes` is complete: an occurring pattern is found. -/
theorem containsSeq_complete {pat l : List Char} (h : pat <:+: l) :
    containsSeq pat l = true :=
  (splitFirstSeq_isSome_iff pat l).mpr h

/-- `includes` is sound: a found pattern occurs. -/
theorem infix_of_containsSeq {pat l : List Char} (h : containsSeq pat l = true) :
    pat <:+: l :=
  (splitFirstSeq_isSome_iff pat l).mp h

/-- Trimming yields a contiguous piece of the original string. -/
theorem trimL_isInfix (l : List Char) : trimL l <:+: l := by
  have h1 : l.dropWhile isJsWhitespace <:+ l := List.dropWhile_suffix _
  have h2 : (l.dropWhile isJsWhitespace).reverse.dropWhile isJsWhitespace <:+
      (l.dropWhile isJsWhitespace).reverse := List.dropWhile_suffix _
  have h3 := h2.reverse
  rw [List.reverse_reverse] at h3
  exact (h3.isInfix).trans h1.isInfix

/-- C6: a query whose trimmed text is empty resets the navigation — every
entry and every group becomes visible again regardless of prior hiding — and
a query equal to a section's exact title keeps at least that section's record
in the filter's result set. -/
theorem C6_search_reset_and_exact_title :
    (∀ (idx : List SearchRecord) (nav : List NavGroup) (q : String),
      trimStr (lowerStr q) = "" →
      allNavShown (searchDocumentation idx nav q) = true) ∧
    (∀ (docs : Docs) (s : Section), s ∈ docs.sections →
      sectionRecord s ∈ filterSearchIndex (buildSearchIndex docs) s.title) := by
  constructor
  · intro idx nav q hq
    rw [searchDocumentation]
    rw [if_pos hq]
    rw [allNavShown, List.all_eq_true]
    intro g hg
    rw [List.mem_map] at hg
    obtain ⟨g0, _, rfl⟩ := hg
    simp [List.all_eq_true]
  · intro docs s hs
    rw [filterSearchIndex, List.mem_filter]
    refine ⟨?_, ?_⟩
    · rw [buildSearchIndex_eq_flatMap, List.mem_flatMap]
      exact ⟨s, hs, List.mem_cons_self ..⟩
    · have htrim : (trimStr (lowerStr s.title)).data <:+: (lowerStr (sectionRecord s).title).data :=
        trimL_isInfix (lowerL s.title.data)
      rw [Bool.or_eq_true]
      exact Or.inr (containsSeq_complete htrim)

/-- Witness for C6 at a concrete index and navigation state: a whitespace
query restores visibility over a fully hidden navigation, and the exact title
`Intro` keeps the section's record in the result set. -/
theorem C6_search_reset_and_exact_title_witness :
    let introSec : Section :=
      { id := "intro", title := "Intro", content := "Hi",
        subsections := [{ title := "Step One", content := "go" }] }
    let docs : Docs := { sections := [introSec] }
    let hiddenNav : List NavGroup :=
      [{
        sectionId := "intro", groupShown := false, titleShown := false,
        subs := [{ sectionId := "intro", subsectionId := "step-one", shown := false }] }]
    allNavShown (searchDocumentation (buildSearchIndex docs) hiddenNav "  ") = true ∧
    sectionRecord introSec ∈ filterSearchIndex (buildSearchIndex docs) "Intro" := by
  intro introSec docs hiddenNav
  constructor
  · exact C6_search_reset_and_exact_title.1 (buildSearchIndex docs) hiddenNav "  " (by decide)
  · exact C6_search_reset_and_exact_title.2 docs introSec (List.mem_cons_self ..)

/-! ### Helper lemmas for C10 -/

/-- A list is an infix of itself followed by anything. -/
theorem infix_self_append (m b : List Char) : m <:+: m ++ b := ⟨[], b, rfl⟩

/-- Extend an infix on the left. -/
theorem infix_extend_left {m y : List Char} (x : List Char) (h : m <:+: y) :
    m <:+: x ++ y := by
  obtain ⟨s, t, rfl⟩ := h
  exact ⟨x ++ s, t, by simp⟩

/-- Extend an infix on the right. -/
theorem infix_extend_right {m x : List Char} (y : List Char) (h : m <:+: x) :
    m <:+: x ++ y := by
  obtain ⟨s, t, rfl⟩ := h
  exact ⟨s, t ++ y, by simp⟩

/-- Character data of a joined list of strings. -/
theorem data_join : ∀ l : List String, (String.join l).data = (l.map String.data).flatten := by
  have haux : ∀ (l : List String) (acc : String),
      (l.foldl (· ++ ·) acc).data = acc.data ++ (l.map String.data).flatten := by
    intro l
    induction l with
    | nil => intro acc; simp
    | cons s t ih =>
      intro acc
      rw [List.foldl_cons, ih, String.data_append]
      simp
  intro l
  simp [String.join, haux l ""]

/-- A subsection's title appears verbatim in the accumulated subsection
markup. -/
theorem title_infix_subsectionsHtml (sub : Subsection) :
    ∀ (subs : List Subsection) (total idx : Nat), sub ∈ subs →
      sub.title.data <:+: (subsectionsHtml total idx subs).data := by
  intro subs
  induction subs with
  | nil => intro total idx h; cases h
  | cons b bs ih =>
    intro total idx h
    rw [subsectionsHtml, String.data_append]
    rcases List.mem_cons.mp h with rfl | hmem
    · apply infix_extend_right
      rw [subsectionBlockHtml]
      simp only [String.data_append, List.append_assoc]
      exact infix_extend_left _ (infix_extend_left _ (infix_extend_left _
        (infix_self_append _ _)))
    · exact infix_extend_left _ (ih total (idx + 1) hmem)

/-- C10: `renderSection` and `buildNavigation` interpolate section titles,
section prose content, and subsection titles verbatim into the generated
markup (so markup characters in those fields reach the page unescaped; only
code content passes through the escaping path). -/
theorem C10_verbatim_interpolation :
    (∀ s : Section,
      s.title.data <:+: (renderSectionHtml s).data ∧
      s.content.data <:+: (renderSectionHtml s).data ∧
      ∀ sub ∈ s.subsections, sub.title.data <:+: (renderSectionHtml s).data) ∧
    (∀ (docs : Docs) (s : Section), s ∈ docs.sections →
      s.title.data <:+: (buildNavigation docs).data ∧
      ∀ sub ∈ s.subsections, sub.title.data <:+: (buildNavigation docs).data) := by
  constructor
  · intro s
    have hdata : (renderSectionHtml s).data =
        (sectionHeaderHtml s).data ++ (subsectionsHtml s.subsections.length 0 s.subsections).data := by
      rw [renderSectionHtml, String.data_append]
    refine ⟨?_, ?_, ?_⟩
    · rw [hdata, sectionHeaderHtml]
      simp only [String.data_append, List.append_assoc]
      exact infix_extend_left _ (infix_self_append _ _)
    · rw [hdata, sectionHeaderHtml]
      simp only [String.data_append, List.append_assoc]
      exact infix_extend_left _ (infix_extend_left _ (infix_extend_left _
        (infix_self_append _ _)))
    · intro sub hsub
      rw [hdata]
      exact infix_extend_left _ (title_infix_subsectionsHtml sub s.subsections _ 0 hsub)
  · intro docs s hs
    have hgroup : ∀ g ∈ docs.sections.map (fun s =>
        "\n                <div class=\"nav-section\">\n                    <div class=\"nav-item nav-section-title\" data-section=\"" ++
        s.id ++ "\">" ++ s.title ++
        "</div>\n                    <div class=\"nav-items\">\n                        " ++
        String.join (s.subsections.map (fun sub =>
          "<div class=\"nav-item nav-subsection\" data-section=\"" ++ s.id ++
          "\" data-subsection=\"" ++ createSubsectionId sub.title ++ "\">" ++
          sub.title ++ "</div>")) ++
        "\n                    </div>\n                </div>\n            "),
        g.data <:+: (buildNavigation docs).data := by
      intro g hg
      rw [buildNavigation, data_join]
      exact List.infix_of_mem_flatten (List.mem_map_of_mem String.data hg)
    have hginf := hgroup _ (List.mem_map_of_mem _ hs)
    constructor
    · refine List.IsInfix.trans ?_ hginf
      simp only [String.data_append, List.append_assoc]
      exact infix_extend_left _ (infix_extend_left _ (infix_extend_left _
        (infix_self_append _ _)))
    · intro sub hsub
      refine List.IsInfix.trans ?_ hginf
      simp only [String.data_append, List.append_assoc, data_join]
      apply infix_extend_left
      apply infix_extend_left
      apply infix_extend_left
      apply infix_extend_left
      apply infix_extend_left
      have hsubitem := List.mem_map_of_mem (fun sub =>
        "<div class=\"nav-item nav-subsection\" data-section=\"" ++ s.id ++
        "\" data-subsection=\"" ++ createSubsectionId sub.title ++ "\">" ++
        sub.title ++ "</div>") hsub
      have hiteminf : (("<div class=\"nav-item nav-subsection\" data-section=\"" ++ s.id ++
          "\" data-subsection=\"" ++ createSubsectionId sub.title ++ "\">" ++
          sub.title ++ "</div>")).data <:+:
          ((s.subsections.map (fun sub =>
            "<div class=\"nav-item nav-subsection\" data-section=\"" ++ s.id ++
            "\" data-subsection=\"" ++ createSubsectionId sub.title ++ "\">" ++
            sub.title ++ "</div>")).map String.data).flatten := by
        exact List.infix_of_mem_flatten (List.mem_map_of_mem String.data hsubitem)
      refine List.IsInfix.trans ?_ (infix_extend_right _ hiteminf)
      simp only [String.data_append, List.append_assoc]
      exact infix_extend_left _ (infix_extend_left _ (infix_extend_left _
        (infix_extend_left _ (infix_extend_left _ (infix_self_append _ _)))))

/-- Witness for C10 at a concrete section whose title contains markup: the
raw `<img…>` text appears verbatim in the rendered section and navigation. -/
theorem C10_verbatim_interpolation_witness :
    let evil : Section :=
      { id := "x", title := "<img src=x onerror=alert(1)>", content := "<b>raw</b>",
        subsections := [] }
    let docs : Docs := { sections := [evil] }
    evil.title.data <:+: (renderSectionHtml evil).data ∧
    evil.content.data <:+: (renderSectionHtml evil).data ∧
    evil.title.data <:+: (buildNavigation docs).data := by
  intro evil docs
  obtain ⟨h1, h2, _⟩ := C10_verbatim_interpolation.1 evil
  obtain ⟨h3, _⟩ := C10_verbatim_interpolation.2 docs evil (List.mem_cons_self ..)
  exact ⟨h1, h2, h3⟩

/-! ### Stage-identity lemmas for the markdown pipeline -/

/-- A scan whose matcher fails on every suffix is the identity, with any
fuel. -/
theorem replaceScan_id {tryAt : List Char → Option (List Char × List Char)} :
    ∀ l : List Char, (∀ s : List Char, s <:+ l → tryAt s = none) →
      ∀ n, replaceScan tryAt n l = l := by
  intro l
  induction l with
  | nil => intro _ n; cases n <;> rfl
  | cons c rest ih =>
    intro h n
    cases n with
    | zero => rfl
    | succ m =>
      show (match tryAt (c :: rest) with
        | some (repl, s) => repl ++ replaceScan tryAt m s
        | none => c :: replaceScan tryAt m rest) = c :: rest
      rw [h (c :: rest) (List.suffix_refl _)]
      rw [ih (fun s hs => h s (hs.trans (List.suffix_cons c rest))) m]

/-- `runReplace` with an everywhere-failing matcher is the identity. -/
theorem runReplace_id {tryAt : List Char → Option (List Char × List Char)}
    {l : List Char} (h : ∀ s : List Char, s <:+ l → tryAt s = none) :
    runReplace tryAt l = l :=
  replaceScan_id l h l.length

/-- The first character of a suffix is a member of the whole list. -/
theorem head_mem_of_suffix {c : Char} {r l : List Char} (h : c :: r <:+ l) : c ∈ l :=
  h.subset (List.mem_cons_self ..)

/-- Without a backtick, the fenced-code matcher never fires. -/
theorem tryCodeBlock_eq_none {l : List Char} (h : backtick ∉ l) :
    ∀ s : List Char, s <:+ l → tryCodeBlock s = none := by
  intro s hs
  match s with
  | [] => rfl
  | [a] => rfl
  | [a, b] => rfl
  | a :: b :: c :: rest =>
    have ha : a ≠ backtick := fun hh => h (hh ▸ head_mem_of_suffix hs)
    rw [tryCodeBlock, if_neg (fun hh => ha hh.1)]

/-- Without a backtick, the inline-code matcher never fires. -/
theorem tryInlineCode_eq_none {l : List Char} (h : backtick ∉ l) :
    ∀ s : List Char, s <:+ l → tryInlineCode s = none := by
  intro s hs
  match s with
  | [] => rfl
  | c :: rest =>
    have hc : c ≠ backtick := fun hh => h (hh ▸ head_mem_of_suffix hs)
    rw [tryInlineCode, if_neg hc]

/-- Without an asterisk, the bold matcher never fires. -/
theorem tryBold_eq_none {l : List Char} (h : '*' ∉ l) :
    ∀ s : List Char, s <:+ l → tryBold s = none := by
  intro s hs
  match s with
  | [] => rfl
  | [a] => rfl
  | a :: b :: rest =>
    have ha : a ≠ '*' := fun hh => h (hh ▸ head_mem_of_suffix hs)
    rw [tryBold, if_neg (fun hh => ha hh.1)]

/-- Without an asterisk, the italic matcher never fires. -/
theorem tryItalic_eq_none {l : List Char} (h : '*' ∉ l) :
    ∀ s : List Char, s <:+ l → tryItalic s = none := by
  intro s hs
  match s with
  | [] => rfl
  | c :: rest =>
    have hc : c ≠ '*' := fun hh => h (hh ▸ head_mem_of_suffix hs)
    rw [tryItalic, if_neg hc]

/-- Without an opening bracket, the link matcher never fires. -/
theorem tryLink_eq_none {l : List Char} (h : '[' ∉ l) :
    ∀ s : List Char, s <:+ l → tryLink s = none := by
  intro s hs
  match s with
  | [] => rfl
  | c :: rest =>
    have hc : c ≠ '[' := fun hh => h (hh ▸ head_mem_of_suffix hs)
    rw [tryLink, if_neg hc]

/-- Without two adjacent newlines, the paragraph-break matcher never fires. -/
theorem tryPara_eq_none {l : List Char} (h : ¬ (['\n', '\n'] <:+: l)) :
    ∀ s : List Char, s <:+ l → tryPara s = none := by
  intro s hs
  match s with
  | [] => rfl
  | [a] => rfl
  | a :: b :: rest =>
    rw [tryPara]
    rw [if_neg]
    rintro ⟨rfl, rfl⟩
    obtain ⟨t, ht⟩ := hs
    exact h ⟨t, rest, by rw [← ht]; simp⟩

/-- `splitNl` never returns the empty list. -/
theorem splitNl_ne_nil : ∀ l : List Char, splitNl l ≠ [] := by
  intro l
  cases l with
  | nil => simp [splitNl]
  | cons c rest =>
    rw [splitNl]
    by_cases hc : c = '\n'
    · rw [if_pos hc]
      simp
    · rw [if_neg hc]
      cases hx : splitNl rest <;> simp

/-- Rejoining the split lines gives back the string. -/
theorem joinNl_splitNl : ∀ l : List Char, joinNl (splitNl l) = l := by
  intro l
  induction l with
  | nil => rfl
  | cons c rest ih =>
    rw [splitNl]
    by_cases hc : c = '\n'
    · rw [if_pos hc]
      obtain ⟨x, xs, hx⟩ : ∃ x xs, splitNl rest = x :: xs := by
        cases hxx : splitNl rest with
        | nil => exact absurd hxx (splitNl_ne_nil rest)
        | cons x xs => exact ⟨x, xs, rfl⟩
      rw [hx]
      show [] ++ '\n' :: joinNl (x :: xs) = c :: rest
      rw [← hx, ih, hc]
      rfl
    · rw [if_neg hc]
      cases hx : splitNl rest with
      | nil => exact absurd hx (splitNl_ne_nil rest)
      | cons x xs =>
        cases xs with
        | nil =>
          show c :: x = c :: rest
          have := ih
          rw [hx] at this
          exact congrArg (c :: ·) this
        | cons y ys =>
          show (c :: x) ++ '\n' :: joinNl (y :: ys) = c :: rest
          have := ih
          rw [hx] at this
          rw [List.cons_append]
          exact congrArg (c :: ·) this

/-- A newline-free string is a single line. -/
theorem splitNl_no_nl {l : List Char} (h : '\n' ∉ l) : splitNl l = [l] := by
  induction l with
  | nil => rfl
  | cons c rest ih =>
    rw [splitNl, if_neg (fun hc => h (by simp [hc])),
      ih (fun hm => h (List.mem_cons_of_mem _ hm))]

/-- A per-line stage whose rule fixes every line is the identity. -/
theorem mapLines_id {f : List Char → List Char} {l : List Char}
    (h : ∀ line ∈ splitNl l, f line = line) : mapLines f l = l := by
  rw [mapLines, List.map_congr_left h]
  have hid : (splitNl l).map (fun a => a) = splitNl l := by simp
  rw [hid, joinNl_splitNl]

/-- A prefix-anchored line rule fixes any line not starting with its
prefix. -/
theorem linePrefixRule_id {pre openT closeT line : List Char}
    (h : ¬ pre.isPrefixOf line = true) :
    linePrefixRule pre openT closeT line = line := by
  rw [linePrefixRule, if_neg (fun hh => h hh.1)]

/-- The ordered-item line rule fixes any line that does not match the
ordered-item pattern. -/
theorem orderedItemLine_id {line : List Char} (h : startsOrderedItem line = false) :
    orderedItemLine line = line := by
  rw [orderedItemLine]
  rw [startsOrderedItem] at h
  by_cases h1 : line.takeWhile Char.isDigit = []
  · rw [if_pos h1]
  · rw [if_neg h1]
    rw [if_neg h1] at h
    split
    · rename_i rest heq
      simp only [heq] at h
      rw [if_neg (by simpa using h)]
    · rfl

/-- The list-wrap stage fixes any string without `<li>`. -/
theorem listWrapStage_id {wrap : List Char → List Char} {l : List Char}
    (h : ¬ ("<li>".data <:+: l)) : listWrapStage wrap l = l := by
  have hsp : splitFirstSeq "<li>".data l = none := by
    cases hx : splitFirstSeq "<li>".data l with
    | none => rfl
    | some pq =>
      exact absurd ((splitFirstSeq_isSome_iff _ _).mp (by rw [hx]; rfl)) h
  rw [listWrapStage, hsp]

/-- `<br>` substitution distributes over append. -/
theorem brStage_append (a b : List Char) : brStage (a ++ b) = brStage a ++ brStage b := by
  rw [brStage, brStage, brStage, List.flatMap_append]

/-- A newline-free string passes the `<br>` substitution unchanged. -/
theorem brStage_id {l : List Char} (h : '\n' ∉ l) : brStage l = l := by
  induction l with
  | nil => rfl
  | cons c rest ih =>
    have hc : c ≠ '\n' := fun hcc => h (by simp [hcc])
    have hrest : '\n' ∉ rest := fun hm => h (List.mem_cons_of_mem _ hm)
    rw [brStage, List.flatMap_cons, if_neg hc]
    show [c] ++ brStage rest = c :: rest
    rw [ih hrest]
    rfl

/-- C9: `renderMarkdown` maps the empty string to the empty string, and every
non-empty plain-text input with no markdown tokens and no newlines comes out
wrapped in a single paragraph tag. -/
theorem C9_renderMarkdown_plaintext :
    renderMarkdown "" = "" ∧
    ∀ s : String, s ≠ "" → noMarkdownTokens s →
      renderMarkdown s = "<p>" ++ s ++ "</p>" := by
  refine ⟨rfl, ?_⟩
  intro s hne hn
  obtain ⟨hbt, hast, hbr, hlt, hnl, hh4, hh3, hh2, huli, hbq, hhr, holi⟩ := hn
  have hline : splitNl s.data = [s.data] := splitNl_no_nl hnl
  have hmap : ∀ f : List Char → List Char, f s.data = s.data →
      mapLines f s.data = s.data := by
    intro f hf
    refine mapLines_id ?_
    rw [hline]
    intro line hmem
    rw [List.mem_singleton] at hmem
    rw [hmem, hf]
  have h1 : runReplace tryCodeBlock s.data = s.data :=
    runReplace_id (tryCodeBlock_eq_none hbt)
  have h2 : runReplace tryInlineCode s.data = s.data :=
    runReplace_id (tryInlineCode_eq_none hbt)
  have h3 : runReplace tryBold s.data = s.data :=
    runReplace_id (tryBold_eq_none hast)
  have h4 : runReplace tryItalic s.data = s.data :=
    runReplace_id (tryItalic_eq_none hast)
  have h5 : mapLines (linePrefixRule "### ".data "<h4>".data "</h4>".data) s.data = s.data :=
    hmap _ (linePrefixRule_id hh4)
  have h6 : mapLines (linePrefixRule "## ".data "<h3>".data "</h3>".data) s.data = s.data :=
    hmap _ (linePrefixRule_id hh3)
  have h7 : mapLines (linePrefixRule "# ".data "<h2>".data "</h2>".data) s.data = s.data :=
    hmap _ (linePrefixRule_id hh2)
  have h8 : runReplace tryLink s.data = s.data :=
    runReplace_id (tryLink_eq_none hbr)
  have h9 : mapLines (linePrefixRule "- ".data "<li>".data "</li>".data) s.data = s.data :=
    hmap _ (linePrefixRule_id huli)
  have hli : ¬ ("<li>".data <:+: s.data) := fun hi => hlt (hi.subset (by decide))
  have h10 : ulWrapStage s.data = s.data := listWrapStage_id hli
  have h11 : mapLines orderedItemLine s.data = s.data :=
    hmap _ (orderedItemLine_id holi)
  have h12 : olWrapStage s.data = s.data := listWrapStage_id hli
  have h13 : mapLines (linePrefixRule "> ".data "<blockquote>".data "</blockquote>".data) s.data = s.data :=
    hmap _ (linePrefixRule_id hbq)
  have h14 : mapLines (fun line => if line = "---".data then "<hr>".data else line) s.data = s.data :=
    hmap _ (if_neg hhr)
  have hnn : ¬ (['\n', '\n'] <:+: s.data) := fun hi => hnl (hi.subset (by decide))
  have h15 : runReplace tryPara s.data = s.data :=
    runReplace_id (tryPara_eq_none hnn)
  have h16 : brStage s.data = s.data := brStage_id hnl
  have hdata : s.data ≠ [] := fun hd => hne (String.ext hd)
  obtain ⟨c, rest, hcr⟩ : ∃ c rest, s.data = c :: rest := by
    cases hx : s.data with
    | nil => exact absurd hx hdata
    | cons c rest => exact ⟨c, rest, rfl⟩
  have hhead : ¬ (s.data.head? = some '<') := by
    rw [hcr]
    intro hh
    rw [List.head?_cons, Option.some_inj] at hh
    exact hlt (hh ▸ (hcr ▸ List.mem_cons_self ..))
  have hpipe : renderMarkdownL s.data = "<p>".data ++ s.data ++ "</p>".data := by
    rw [renderMarkdownL]
    simp only []
    rw [h1, h2, h3, h4, h5, h6, h7, h8, h9, h10, h11, h12, h13, h14, h15, h16]
    rw [if_neg hhead]
  calc renderMarkdown s = ⟨renderMarkdownL s.data⟩ := by rw [renderMarkdown, if_neg hne]
    _ = ⟨"<p>".data ++ s.data ++ "</p>".data⟩ := congrArg String.mk hpipe
    _ = "<p>" ++ s ++ "</p>" := by
        apply String.ext
        rw [String.data_append, String.data_append]

/-- Witness for C9: the empty input and the plain text `hello world`. -/
theorem C9_renderMarkdown_plaintext_witness :
    renderMarkdown "" = "" ∧
    renderMarkdown "hello world" = "<p>" ++ "hello world" ++ "</p>" :=
  ⟨C9_renderMarkdown_plaintext.1,
    C9_renderMarkdown_plaintext.2 "hello world" (by decide) (by decide)⟩

/-! ### Decomposition of pattern occurrences across appends (for C1) -/

/-- A prefix of an append is a prefix of the left part or extends it into the
right part. -/
theorem prefix_append_cases :
    ∀ {a : List Char} {p b : List Char}, p <+: a ++ b →
      p <+: a ∨ ∃ p2, p = a ++ p2 ∧ p2 <+: b := by
  intro a
  induction a with
  | nil =>
    intro p b h
    exact Or.inr ⟨p, by simp, h⟩
  | cons x a' ih =>
    intro p b h
    cases p with
    | nil => exact Or.inl (List.nil_prefix ..)
    | cons y p' =>
      rw [List.cons_append, List.cons_prefix_cons] at h
      obtain ⟨rfl, h'⟩ := h
      rcases ih h' with hleft | ⟨p2, rfl, hp2⟩
      · exact Or.inl (List.cons_prefix_cons.mpr ⟨rfl, hleft⟩)
      · exact Or.inr ⟨p2, by rw [List.cons_append], hp2⟩

/-- An occurrence of a pattern in an append lies in the left part, in the
right part, or splits across the boundary into a non-empty suffix-of-left
piece and a non-empty prefix-of-right piece. -/
theorem infix_append_cases :
    ∀ {a : List Char} {pat b : List Char}, pat <:+: a ++ b →
      pat <:+: a ∨ pat <:+: b ∨
      ∃ p1 p2, pat = p1 ++ p2 ∧ p1 ≠ [] ∧ p2 ≠ [] ∧ p1 <:+ a ∧ p2 <+: b := by
  intro a
  induction a with
  | nil =>
    intro pat b h
    rw [List.nil_append] at h
    exact Or.inr (Or.inl h)
  | cons x a' ih =>
    intro pat b h
    rw [List.cons_append, List.infix_cons_iff] at h
    rcases h with hpre | hinf
    · cases pat with
      | nil => exact Or.inl (List.nil_infix ..)
      | cons y pat' =>
        rw [List.cons_prefix_cons] at hpre
        obtain ⟨rfl, h'⟩ := hpre
        rcases prefix_append_cases h' with hleft | ⟨p2, rfl, hp2⟩
        · exact Or.inl (List.cons_prefix_cons.mpr ⟨rfl, hleft⟩).isInfix
        · cases p2 with
          | nil =>
            refine Or.inl ?_
            rw [List.append_nil]
          | cons z p2' =>
            refine Or.inr (Or.inr ⟨y :: a', z :: p2', by rw [List.cons_append], by simp, by simp,
              List.suffix_refl _, hp2⟩)
    · rcases ih hinf with h1 | h2 | ⟨p1, p2, rfl, hp1, hp2, hs, hp⟩
      · exact Or.inl (List.infix_cons_iff.mpr (Or.inr h1))
      · exact Or.inr (Or.inl h2)
      · exact Or.inr (Or.inr ⟨p1, p2, rfl, hp1, hp2, hs.trans (List.suffix_cons x a'), hp⟩)

/-- The ways a two-character pattern can split into two non-empty parts. -/
theorem append_eq_two {p1 p2 : List Char} {x y : Char}
    (h : p1 ++ p2 = [x, y]) (h1 : p1 ≠ []) (h2 : p2 ≠ []) :
    p1 = [x] ∧ p2 = [y] := by
  match p1, h1 with
  | [a], _ =>
    simp only [List.singleton_append, List.cons.injEq] at h
    exact ⟨by rw [h.1], h.2⟩
  | a :: b :: rest, _ =>
    simp only [List.cons_append, List.cons.injEq] at h
    exact absurd (List.append_eq_nil.mp h.2.2).2 h2

/-- The ways a four-character pattern can split into two non-empty parts. -/
theorem append_eq_four {p1 p2 : List Char} {w x y z : Char}
    (h : p1 ++ p2 = [w, x, y, z]) (h1 : p1 ≠ []) (h2 : p2 ≠ []) :
    (p1 = [w] ∧ p2 = [x, y, z]) ∨ (p1 = [w, x] ∧ p2 = [y, z]) ∨
    (p1 = [w, x, y] ∧ p2 = [z]) := by
  match p1, h1 with
  | [a], _ =>
    simp only [List.singleton_append, List.cons.injEq] at h
    exact Or.inl ⟨by rw [h.1], h.2⟩
  | [a, b], _ =>
    simp only [List.cons_append, List.nil_append, List.cons.injEq] at h
    exact Or.inr (Or.inl ⟨by rw [h.1, h.2.1], h.2.2⟩)
  | [a, b, c], _ =>
    simp only [List.cons_append, List.nil_append, List.cons.injEq] at h
    exact Or.inr (Or.inr ⟨by rw [h.1, h.2.1, h.2.2.1], h.2.2.2⟩)
  | a :: b :: c :: d :: rest, _ =>
    simp only [List.cons_append, List.cons.injEq] at h
    exact absurd (List.append_eq_nil.mp h.2.2.2.2).2 h2

/-! ### Character facts about the escaping function -/

/-- Any character of the escaped text is a kept source character or part of
one of the three entities. -/
theorem mem_escapeHtmlL {c : Char} {l : List Char} (h : c ∈ escapeHtmlL l) :
    c ∈ l ∨ c ∈ "&amp;&lt;&gt;".data := by
  rw [escapeHtmlL, List.mem_flatMap] at h
  obtain ⟨d, hd, hc⟩ := h
  rw [escapeChar] at hc
  have hsub1 : ∀ x ∈ "&amp;".data, x ∈ "&amp;&lt;&gt;".data := by decide
  have hsub2 : ∀ x ∈ "&lt;".data, x ∈ "&amp;&lt;&gt;".data := by decide
  have hsub3 : ∀ x ∈ "&gt;".data, x ∈ "&amp;&lt;&gt;".data := by decide
  split_ifs at hc with h1 h2 h3
  · exact Or.inr (hsub1 c hc)
  · exact Or.inr (hsub2 c hc)
  · exact Or.inr (hsub3 c hc)
  · rw [List.mem_singleton] at hc
    exact Or.inl (hc ▸ hd)

/-- The escaped text never contains a raw `<`. -/
theorem no_lt_escapeHtmlL (l : List Char) : '<' ∉ escapeHtmlL l := by
  intro h
  rw [escapeHtmlL, List.mem_flatMap] at h
  obtain ⟨d, _, hc⟩ := h
  rw [escapeChar] at hc
  split_ifs at hc with h1 h2 h3
  · revert hc; decide
  · revert hc; decide
  · revert hc; decide
  · rw [List.mem_singleton] at hc
    exact h2 hc.symm

/-- The escaped text never contains a raw `>`. -/
theorem no_gt_escapeHtmlL (l : List Char) : '>' ∉ escapeHtmlL l := by
  intro h
  rw [escapeHtmlL, List.mem_flatMap] at h
  obtain ⟨d, _, hc⟩ := h
  rw [escapeChar] at hc
  split_ifs at hc with h1 h2 h3
  · revert hc; decide
  · revert hc; decide
  · revert hc; decide
  · rw [List.mem_singleton] at hc
    exact h3 hc.symm

/-- Escaping preserves the absence of characters that appear in no entity. -/
theorem not_mem_escapeHtmlL {c : Char} {l : List Char}
    (hl : c ∉ l) (hent : c ∉ "&amp;&lt;&gt;".data) : c ∉ escapeHtmlL l :=
  fun h => (mem_escapeHtmlL h).elim hl hent

/-- Trimming preserves the absence of a character. -/
theorem not_mem_trimL {c : Char} {l : List Char} (h : c ∉ l) : c ∉ trimL l :=
  fun hm => h ((trimL_isInfix l).subset hm)

/-! ### The fenced-code stage on a whole-input fence (for C1) -/

/-- A matcher that matches the entire input makes the replace produce exactly
the replacement. -/
theorem runReplace_single {tryAt : List Char → Option (List Char × List Char)}
    {l r : List Char} (hl : l ≠ []) (h : tryAt l = some (r, [])) :
    runReplace tryAt l = r := by
  obtain ⟨c, rest, rfl⟩ := List.exists_cons_of_ne_nil hl
  rw [runReplace, List.length_cons]
  show (match tryAt (c :: rest) with
    | some (repl, s) => repl ++ replaceScan tryAt rest.length s
    | none => c :: replaceScan tryAt rest.length rest) = r
  rw [h]
  show r ++ replaceScan tryAt rest.length [] = r
  have hz : replaceScan tryAt rest.length [] = [] := by
    cases rest.length <;> rfl
  rw [hz, List.append_nil]

/-- Finding the closing fence after backtick-free code. -/
theorem splitFirstSeq_tick_append {c : List Char} (h : backtick ∉ c) :
    splitFirstSeq tripleTick (c ++ tripleTick) = some (c, []) := by
  induction c with
  | nil =>
    rw [List.nil_append]
    decide
  | cons d rest ih =>
    have hd : d ≠ backtick := fun h' => h (by simp [h'])
    rw [List.cons_append, splitFirstSeq, if_neg ?hpre]
    · rw [ih (fun hm => h (List.mem_cons_of_mem _ hm))]
      rfl
    case hpre =>
      intro hpre
      rw [List.isPrefixOf_iff_prefix] at hpre
      rw [show tripleTick = backtick :: [backtick, backtick] from rfl,
        List.cons_prefix_cons] at hpre
      exact hd hpre.1.symm

/-- The fenced-code matcher fires on the whole ```` ```text ```` fence. -/
theorem tryCodeBlock_full {c : List Char} (hc : backtick ∉ c) :
    tryCodeBlock ("\x60\x60\x60text\n".data ++ (c ++ tripleTick)) =
      some (codeBlockRepl "text".data c, []) := by
  have ht : isWordChar 't' = true := by decide
  have he : isWordChar 'e' = true := by decide
  have hx : isWordChar 'x' = true := by decide
  have hn : isWordChar '\n' = false := by decide
  show tryCodeBlock (backtick :: backtick :: backtick ::
    ('t' :: 'e' :: 'x' :: 't' :: '\n' :: (c ++ tripleTick))) = _
  rw [tryCodeBlock, if_pos ⟨rfl, rfl, rfl⟩]
  rw [show ('t' :: 'e' :: 'x' :: 't' :: '\n' :: (c ++ tripleTick)).takeWhile isWordChar =
      "text".data from by
    simp only [List.takeWhile_cons, ht, he, hx, hn, if_true, if_false]
    rfl]
  rw [show ('t' :: 'e' :: 'x' :: 't' :: '\n' :: (c ++ tripleTick)).dropWhile isWordChar =
      '\n' :: (c ++ tripleTick) from by
    simp [List.dropWhile_cons, ht, he, hx, hn]]
  show (match splitFirstSeq tripleTick (c ++ tripleTick) with
      | some (code, after) => some (codeBlockRepl "text".data code, after)
      | none => none) = some (codeBlockRepl "text".data c, [])
  rw [splitFirstSeq_tick_append hc]

/-- The `text`-language code-block replacement in closed form: the concrete
prefix markup, the escaped trimmed code, the concrete suffix markup. -/
theorem codeBlockRepl_text (c : List Char) :
    codeBlockRepl "text".data c =
      codeFencePre ++ (escapeHtmlL (trimL c) ++ codeFencePost) := by
  rw [codeBlockRepl, if_neg (by decide), highlightCodeL]
  rw [if_neg (by decide), if_neg (by decide)]
  rw [codeFencePre, codeFencePost]
  simp only [List.append_assoc]

/-! ### Line structure of the fenced-block output (for C1) -/

/-- Peeling a newline off the front of `splitNl`. -/
theorem splitNl_cons_nl (rest : List Char) :
    splitNl ('\n' :: rest) = [] :: splitNl rest := by
  rw [splitNl, if_pos rfl]

/-- Peeling a newline-free chunk off the front of `splitNl`. -/
theorem splitNl_append_left_no_nl {E : List Char} (hE : '\n' ∉ E) :
    ∀ b, splitNl (E ++ b) = (E ++ (splitNl b).headD []) :: (splitNl b).tail := by
  induction E with
  | nil =>
    intro b
    rw [List.nil_append]
    cases hx : splitNl b with
    | nil => exact absurd hx (splitNl_ne_nil b)
    | cons x xs => simp
  | cons d E' ih =>
    intro b
    have hd : d ≠ '\n' := fun h' => hE (by simp [h'])
    rw [List.cons_append, splitNl, if_neg hd]
    rw [ih (fun hm => hE (List.mem_cons_of_mem _ hm)) b]
    rfl

set_option maxRecDepth 20000 in
/-- The lines of the fenced-block output: seven concrete template lines, and
one line carrying the escaped code between the `<pre><code>` markup. -/
theorem splitNl_fence {E : List Char} (hE : '\n' ∉ E) :
    splitNl (codeFencePre ++ (E ++ codeFencePost)) =
      [[],
       "                    <div class=\"code-block\" data-language=\"text\">".data,
       "                        <div class=\"code-header\">".data,
       "                            <span class=\"code-lang\">text</span>".data,
       "                        </div>".data,
       "                        <pre><code class=\"language-text\">".data ++ (E ++ "</code></pre>".data),
       "                    </div>".data,
       "                ".data] := by
  show splitNl ('\n' ::
      ("                    <div class=\"code-block\" data-language=\"text\">".data ++ ('\n' ::
        ("                        <div class=\"code-header\">".data ++ ('\n' ::
          ("                            <span class=\"code-lang\">text</span>".data ++ ('\n' ::
            ("                        </div>".data ++ ('\n' ::
              ("                        <pre><code class=\"language-text\">".data ++
                (E ++ ("</code></pre>".data ++ ('\n' ::
                  ("                    </div>".data ++ ('\n' ::
                    "                ".data))))))))))))))) = _
  rw [splitNl_cons_nl]
  rw [splitNl_append_left_no_nl (by decide)]
  rw [splitNl_cons_nl]
  rw [splitNl_append_left_no_nl (by decide)]
  rw [splitNl_cons_nl]
  rw [splitNl_append_left_no_nl (by decide)]
  rw [splitNl_cons_nl]
  rw [splitNl_append_left_no_nl (by decide)]
  rw [splitNl_cons_nl]
  rw [splitNl_append_left_no_nl (by decide)]
  rw [splitNl_append_left_no_nl hE]
  rw [splitNl_append_left_no_nl (by decide)]
  rw [splitNl_cons_nl]
  rw [splitNl_append_left_no_nl (by decide)]
  rw [splitNl_cons_nl]
  rw [splitNl_no_nl (by decide)]
  simp only [List.headD_cons, List.tail_cons, List.append_nil]

/-- Refute a suffix through the decidable prefix test on the reversals. -/
theorem not_suffix_of_rev {p l : List Char}
    (h : ¬ List.isPrefixOf p.reverse l.reverse = true) : ¬ (p <:+ l) :=
  fun hs => h (List.isPrefixOf_iff_prefix.mpr (List.reverse_prefix.mpr hs))

set_option maxRecDepth 20000 in
/-- The fenced-block output contains no `<li>` when the escaped code has no
raw `<`: the pattern occurs in neither concrete template half and cannot
straddle a boundary. -/
theorem no_li_in_fence {E : List Char} (hlt : '<' ∉ E) :
    ¬ ("<li>".data <:+: codeFencePre ++ (E ++ codeFencePost)) := by
  intro h
  rcases infix_append_cases h with hA | hBC | ⟨p1, p2, hsplit, h1, h2, hs, _⟩
  · exact absurd (containsSeq_complete hA) (by decide)
  · rcases infix_append_cases hBC with hB | hC | ⟨q1, q2, hsplit, hq1, hq2, hqs, _⟩
    · exact hlt (hB.subset (by decide))
    · exact absurd (containsSeq_complete hC) (by decide)
    · rcases append_eq_four hsplit.symm hq1 hq2 with ⟨he, _⟩ | ⟨he, _⟩ | ⟨he, _⟩ <;>
        rw [he] at hqs
      · exact hlt (hqs.subset (by decide))
      · exact hlt (hqs.subset (by decide))
      · exact hlt (hqs.subset (by decide))
  · rcases append_eq_four hsplit.symm h1 h2 with ⟨he, _⟩ | ⟨he, _⟩ | ⟨he, _⟩ <;>
      rw [he] at hs
    · exact absurd hs (not_suffix_of_rev (by decide))
    · exact absurd hs (not_suffix_of_rev (by decide))
    · exact absurd hs (not_suffix_of_rev (by decide))

set_option maxRecDepth 20000 in
/-- The fenced-block output contains no two adjacent newlines when the
escaped code has none: each template newline is followed by a space or `<`. -/
theorem no_nlnl_in_fence {E : List Char} (hnl : '\n' ∉ E) :
    ¬ (['\n', '\n'] <:+: codeFencePre ++ (E ++ codeFencePost)) := by
  intro h
  rcases infix_append_cases h with hA | hBC | ⟨p1, p2, hsplit, h1, h2, hs, _⟩
  · exact absurd (containsSeq_complete hA) (by decide)
  · rcases infix_append_cases hBC with hB | hC | ⟨q1, q2, hsplit, hq1, hq2, hqs, _⟩
    · exact hnl (hB.subset (by decide))
    · exact absurd (containsSeq_complete hC) (by decide)
    · obtain ⟨he, _⟩ := append_eq_two hsplit.symm hq1 hq2
      rw [he] at hqs
      exact hnl (hqs.subset (by decide))
  · obtain ⟨he, _⟩ := append_eq_two hsplit.symm h1 h2
    rw [he] at hs
    exact absurd hs (not_suffix_of_rev (by decide))

set_option maxRecDepth 20000 in
/-- Every line of the fenced-block output is empty or starts with a space. -/
theorem fence_line_shape {E : List Char} (hE : '\n' ∉ E) :
    ∀ line ∈ splitNl (codeFencePre ++ (E ++ codeFencePost)),
      line = [] ∨ ∃ r, line = ' ' :: r := by
  rw [splitNl_fence hE]
  intro line hmem
  simp only [List.mem_cons, List.not_mem_nil, or_false] at hmem
  rcases hmem with rfl | rfl | rfl | rfl | rfl | rfl | rfl | rfl
  · exact Or.inl rfl
  · exact Or.inr ⟨_, rfl⟩
  · exact Or.inr ⟨_, rfl⟩
  · exact Or.inr ⟨_, rfl⟩
  · exact Or.inr ⟨_, rfl⟩
  · exact Or.inr ⟨_, rfl⟩
  · exact Or.inr ⟨_, rfl⟩
  · exact Or.inr ⟨_, rfl⟩

/-- A per-line rule that fixes the empty line and every space-headed line is
the identity on the fenced-block output. -/
theorem mapLines_fence_id {E : List Char} (hE : '\n' ∉ E)
    (g : List Char → List Char) (hnil : g [] = [])
    (hsp : ∀ r, g (' ' :: r) = ' ' :: r) :
    mapLines g (codeFencePre ++ (E ++ codeFencePost)) =
      codeFencePre ++ (E ++ codeFencePost) := by
  refine mapLines_id ?_
  intro line hmem
  rcases fence_line_shape hE line hmem with rfl | ⟨r, rfl⟩
  · exact hnil
  · exact hsp r

/-- The head of an append with a known non-empty left part. -/
theorem head_append_of_head {A : List Char} {ch : Char}
    (h : A.head? = some ch) (X : List Char) : (A ++ X).head? = some ch := by
  cases A with
  | nil => exact absurd h (by simp)
  | cons a t => exact h

/-- The character data of an explicitly built string. -/
theorem string_data_mk (l : List Char) : (String.mk l).data = l := rfl

set_option maxRecDepth 20000 in
/-- C1 counterexample: inline-code content is interpolated verbatim, not
HTML-entity-escaped.  The inline span `` `<b>bold</b>` `` renders with the
raw `<b>bold</b>` inside the `<code>` element and no `&lt;` entity anywhere,
so markup characters from code content reach the HTML fragment. -/
theorem C1_escaping_counterexample :
    renderMarkdown "\x60<b>bold</b>\x60" =
      "<code class=\"inline-code\"><b>bold</b></code>" ∧
    "<b>bold</b>".data <:+: (renderMarkdown "\x60<b>bold</b>\x60").data ∧
    ¬ ("&lt;".data <:+: (renderMarkdown "\x60<b>bold</b>\x60").data) := by
  refine ⟨by decide, by decide, by decide⟩

set_option maxRecDepth 20000 in
set_option maxHeartbeats 1000000 in
/-- C1 (amended): `escapeHtml` never emits a raw angle bracket, and
fenced code-block content really is HTML-entity-escaped — a whole-input
```` ```text ```` fence whose code contains none of the scanning trigger
characters renders as the concrete block template around the escaped trimmed
code.  (Inline-code content, by contrast, is interpolated verbatim.) -/
theorem C1_escaping_amended :
    (∀ s : String, '<' ∉ (escapeHtml s).data ∧ '>' ∉ (escapeHtml s).data) ∧
    ∀ c : String, backtick ∉ c.data → '*' ∉ c.data → '[' ∉ c.data → '\n' ∉ c.data →
      (renderMarkdown ("\x60\x60\x60text\n" ++ c ++ "\x60\x60\x60")).data =
        brStage codeFencePre ++
          (escapeHtmlL (trimL c.data) ++ brStage codeFencePost) := by
  refine ⟨fun s => ⟨no_lt_escapeHtmlL s.data, no_gt_escapeHtmlL s.data⟩, ?_⟩
  intro c hbt hast hbr hnl
  have hEb : backtick ∉ escapeHtmlL (trimL c.data) :=
    not_mem_escapeHtmlL (not_mem_trimL hbt) (by decide)
  have hEa : '*' ∉ escapeHtmlL (trimL c.data) :=
    not_mem_escapeHtmlL (not_mem_trimL hast) (by decide)
  have hEk : '[' ∉ escapeHtmlL (trimL c.data) :=
    not_mem_escapeHtmlL (not_mem_trimL hbr) (by decide)
  have hEn : '\n' ∉ escapeHtmlL (trimL c.data) :=
    not_mem_escapeHtmlL (not_mem_trimL hnl) (by decide)
  have hElt : '<' ∉ escapeHtmlL (trimL c.data) := no_lt_escapeHtmlL _
  have hW : ∀ ch : Char, ch ∉ codeFencePre → ch ∉ escapeHtmlL (trimL c.data) →
      ch ∉ codeFencePost →
      ch ∉ codeFencePre ++ (escapeHtmlL (trimL c.data) ++ codeFencePost) := by
    intro ch g1 g2 g3 hm
    rcases List.mem_append.mp hm with hm | hm
    · exact g1 hm
    rcases List.mem_append.mp hm with hm | hm
    · exact g2 hm
    · exact g3 hm
  have hWb : backtick ∉ codeFencePre ++ (escapeHtmlL (trimL c.data) ++ codeFencePost) :=
    hW _ (by decide) hEb (by decide)
  have hWa : '*' ∉ codeFencePre ++ (escapeHtmlL (trimL c.data) ++ codeFencePost) :=
    hW _ (by decide) hEa (by decide)
  have hWk : '[' ∉ codeFencePre ++ (escapeHtmlL (trimL c.data) ++ codeFencePost) :=
    hW _ (by decide) hEk (by decide)
  have hne0 : "\x60\x60\x60text\n".data ++ (c.data ++ tripleTick) ≠ [] := by
    intro h
    exact absurd (List.append_eq_nil.mp h).1 (by decide)
  have h1 : runReplace tryCodeBlock ("\x60\x60\x60text\n".data ++ (c.data ++ tripleTick)) =
      codeFencePre ++ (escapeHtmlL (trimL c.data) ++ codeFencePost) := by
    rw [runReplace_single hne0 (tryCodeBlock_full hbt), codeBlockRepl_text]
  have h2 : runReplace tryInlineCode
      (codeFencePre ++ (escapeHtmlL (trimL c.data) ++ codeFencePost)) =
      codeFencePre ++ (escapeHtmlL (trimL c.data) ++ codeFencePost) :=
    runReplace_id (tryInlineCode_eq_none hWb)
  have h3 : runReplace tryBold
      (codeFencePre ++ (escapeHtmlL (trimL c.data) ++ codeFencePost)) =
      codeFencePre ++ (escapeHtmlL (trimL c.data) ++ codeFencePost) :=
    runReplace_id (tryBold_eq_none hWa)
  have h4 : runReplace tryItalic
      (codeFencePre ++ (escapeHtmlL (trimL c.data) ++ codeFencePost)) =
      codeFencePre ++ (escapeHtmlL (trimL c.data) ++ codeFencePost) :=
    runReplace_id (tryItalic_eq_none hWa)
  have h5 : mapLines (linePrefixRule "### ".data "<h4>".data "</h4>".data)
      (codeFencePre ++ (escapeHtmlL (trimL c.data) ++ codeFencePost)) =
      codeFencePre ++ (escapeHtmlL (trimL c.data) ++ codeFencePost) :=
    mapLines_fence_id hEn _ rfl (fun r => rfl)
  have h6 : mapLines (linePrefixRule "## ".data "<h3>".data "</h3>".data)
      (codeFencePre ++ (escapeHtmlL (trimL c.data) ++ codeFencePost)) =
      codeFencePre ++ (escapeHtmlL (trimL c.data) ++ codeFencePost) :=
    mapLines_fence_id hEn _ rfl (fun r => rfl)
  have h7 : mapLines (linePrefixRule "# ".data "<h2>".data "</h2>".data)
      (codeFencePre ++ (escapeHtmlL (trimL c.data) ++ codeFencePost)) =
      codeFencePre ++ (escapeHtmlL (trimL c.data) ++ codeFencePost) :=
    mapLines_fence_id hEn _ rfl (fun r => rfl)
  have h8 : runReplace tryLink
      (codeFencePre ++ (escapeHtmlL (trimL c.data) ++ codeFencePost)) =
      codeFencePre ++ (escapeHtmlL (trimL c.data) ++ codeFencePost) :=
    runReplace_id (tryLink_eq_none hWk)
  have h9 : mapLines (linePrefixRule "- ".data "<li>".data "</li>".data)
      (codeFencePre ++ (escapeHtmlL (trimL c.data) ++ codeFencePost)) =
      codeFencePre ++ (escapeHtmlL (trimL c.data) ++ codeFencePost) :=
    mapLines_fence_id hEn _ rfl (fun r => rfl)
  have h10 : ulWrapStage (codeFencePre ++ (escapeHtmlL (trimL c.data) ++ codeFencePost)) =
      codeFencePre ++ (escapeHtmlL (trimL c.data) ++ codeFencePost) :=
    listWrapStage_id (no_li_in_fence hElt)
  have h11 : mapLines orderedItemLine
      (codeFencePre ++ (escapeHtmlL (trimL c.data) ++ codeFencePost)) =
      codeFencePre ++ (escapeHtmlL (trimL c.data) ++ codeFencePost) :=
    mapLines_fence_id hEn _ rfl (fun r => rfl)
  have h12 : olWrapStage (codeFencePre ++ (escapeHtmlL (trimL c.data) ++ codeFencePost)) =
      codeFencePre ++ (escapeHtmlL (trimL c.data) ++ codeFencePost) :=
    listWrapStage_id (no_li_in_fence hElt)
  have h13 : mapLines (linePrefixRule "> ".data "<blockquote>".data "</blockquote>".data)
      (codeFencePre ++ (escapeHtmlL (trimL c.data) ++ codeFencePost)) =
      codeFencePre ++ (escapeHtmlL (trimL c.data) ++ codeFencePost) :=
    mapLines_fence_id hEn _ rfl (fun r => rfl)
  have h14 : mapLines (fun line => if line = "---".data then "<hr>".data else line)
      (codeFencePre ++ (escapeHtmlL (trimL c.data) ++ codeFencePost)) =
      codeFencePre ++ (escapeHtmlL (trimL c.data) ++ codeFencePost) :=
    mapLines_fence_id hEn _ rfl (fun r => rfl)
  have h15 : runReplace tryPara
      (codeFencePre ++ (escapeHtmlL (trimL c.data) ++ codeFencePost)) =
      codeFencePre ++ (escapeHtmlL (trimL c.data) ++ codeFencePost) :=
    runReplace_id (tryPara_eq_none (no_nlnl_in_fence hEn))
  have h16 : brStage (codeFencePre ++ (escapeHtmlL (trimL c.data) ++ codeFencePost)) =
      brStage codeFencePre ++ (escapeHtmlL (trimL c.data) ++ brStage codeFencePost) := by
    rw [brStage_append, brStage_append, brStage_id hEn]
  have hpre : (brStage codeFencePre).head? = some '<' := by decide
  have hhead : (brStage codeFencePre ++
      (escapeHtmlL (trimL c.data) ++ brStage codeFencePost)).head? = some '<' :=
    head_append_of_head hpre _
  have hdata : ("\x60\x60\x60text\n" ++ c ++ "\x60\x60\x60").data =
      "\x60\x60\x60text\n".data ++ (c.data ++ tripleTick) := by
    rw [String.data_append, String.data_append, List.append_assoc]
    rfl
  have hpipe : renderMarkdownL ("\x60\x60\x60text\n".data ++ (c.data ++ tripleTick)) =
      brStage codeFencePre ++ (escapeHtmlL (trimL c.data) ++ brStage codeFencePost) := by
    rw [renderMarkdownL]
    simp only []
    rw [h1, h2, h3, h4, h5, h6, h7, h8, h9, h10, h11, h12, h13, h14, h15, h16]
    rw [if_pos hhead]
  have hne : ("\x60\x60\x60text\n" ++ c ++ "\x60\x60\x60") ≠ "" := by
    intro h
    have hd := congrArg String.data h
    rw [hdata] at hd
    exact absurd (List.append_eq_nil.mp hd).1 (by decide)
  rw [renderMarkdown, if_neg hne]
  rw [hdata, string_data_mk]
  exact hpipe

set_option maxRecDepth 20000 in
/-- Witness for C1's amended statement: the string `a<b` escapes without raw
angle brackets, and the concrete fence around `x < y` renders as the block
template with `x &lt; y` inside. -/
theorem C1_escaping_amended_witness :
    ('<' ∉ (escapeHtml "a<b").data ∧ '>' ∉ (escapeHtml "a<b").data) ∧
    (renderMarkdown ("\x60\x60\x60text\n" ++ "x < y" ++ "\x60\x60\x60")).data =
      brStage codeFencePre ++
        (escapeHtmlL (trimL "x < y".data) ++ brStage codeFencePost) :=
  ⟨C1_escaping_amended.1 "a<b",
   C1_escaping_amended.2 "x < y" (by decide) (by decide) (by decide) (by decide)⟩

end WebhookDocs
